import Mathlib

/-!
Shallow embedding of `HUTformer.py` (repository `JasonStraka/HUTformer`).

Tensors are modelled as a shape (list of dimension sizes) together with a
total indexing function `List ℕ → ℚ`; indices outside the shape are junk.
Fallible torch operations return `Option Tensor`, with `none` modelling a
raised exception (shape mismatch, failed `view`/`rearrange`, index error).
Scalars are rationals; the transcendental primitives that torch provides
(`exp`, `sqrt`, `log`, `log2`, `erf`, `erfinv`) are abstracted as a record
`Ops` of functions `ℚ → ℚ`, since no claim depends on their analytic values.
Randomness (parameter initialisation draws, dropout masks) is modelled by
explicit function arguments, i.e. the random state is passed in.
-/

/-- Abstract transcendental primitives delegated to torch/numpy by the source. -/
structure Ops where
  exp : ℚ → ℚ
  sqrt : ℚ → ℚ
  log : ℚ → ℚ
  log2 : ℚ → ℚ
  erf : ℚ → ℚ
  erfinv : ℚ → ℚ

/-- A concrete instantiation of `Ops` (used only to evaluate the embedding at
concrete inputs; the claims hold for every instantiation). -/
def trivOps : Ops := ⟨fun _ => 0, fun _ => 0, fun _ => 0, fun _ => 0, fun _ => 0, fun _ => 0⟩

/-- Dense ℚ-valued tensor: shape plus total indexing function. -/
structure Tensor where
  shape : List ℕ
  data : List ℕ → ℚ

/-- Integer-valued tensor (used for the `relative_position_index` buffer). -/
structure TensorZ where
  shape : List ℕ
  data : List ℕ → ℤ

def Tensor.numel (x : Tensor) : ℕ := x.shape.prod

/-- Row-major linearisation of a multi-index w.r.t. a shape. -/
def flatIdx : List ℕ → List ℕ → ℕ
  | _ :: ds, j :: js => j * ds.prod + flatIdx ds js
  | _, _ => 0

/-- Inverse of `flatIdx`: recover a multi-index from a row-major offset. -/
def unflatIdx : List ℕ → ℕ → List ℕ
  | [], _ => []
  | _ :: ds, r => (r / ds.prod) :: unflatIdx ds (r % ds.prod)

/-- Elementwise map over a tensor (torch pointwise ops never raise). -/
def emap (f : ℚ → ℚ) (x : Tensor) : Tensor :=
  ⟨x.shape, fun i => f (x.data i)⟩

/-- `torch.clamp(x, min=a, max=b)` on one element. -/
def clampQ (a b x : ℚ) : ℚ := min (max x a) b

/-- `torch.sign` on one element (exact, no `Ops` needed). -/
def signQ (x : ℚ) : ℚ := if 0 < x then 1 else if x < 0 then -1 else 0

/-- `torch.sigmoid` on one element, via the abstract `exp`. -/
def sigmoidQ (ops : Ops) (x : ℚ) : ℚ := 1 / (1 + ops.exp (-x))

/-- `F.relu` on one element. -/
def reluQ (x : ℚ) : ℚ := max x 0

/-- `norm_cdf` from `_no_grad_trunc_normal_` (HUTformer.py lines 13-15). -/
def norm_cdf (ops : Ops) (x : ℚ) : ℚ := (1 + ops.erf (x / ops.sqrt 2)) / 2

/-- One element of the in-place pipeline of `_no_grad_trunc_normal_`
(HUTformer.py lines 31-42): starting from a uniform draw `u`, apply
`erfinv_`, multiply by `std * sqrt 2`, add `mean`, clamp to `[a, b]`. -/
def truncScalar (ops : Ops) (mean std a b u : ℚ) : ℚ :=
  clampQ a b (ops.erfinv u * (std * ops.sqrt 2) + mean)

/-- `_no_grad_trunc_normal_` / `trunc_normal_` (HUTformer.py lines 10-63) on a
flat list of uniform draws (the values produced by `tensor.uniform_`). -/
def trunc_normal_fill (ops : Ops) (draws : List ℚ) (mean std a b : ℚ) : List ℚ :=
  draws.map (truncScalar ops mean std a b)

/-- `nn.Linear` / `F.linear`: weight `w : out × in`, optional bias. -/
structure LinearM where
  inF : ℕ
  outF : ℕ
  w : ℕ → ℕ → ℚ
  b : Option (ℕ → ℚ)

/-- `F.linear(x, w, b)` over the last axis; raises unless the last dimension
of `x` equals the input dimension of the weight. -/
def linWB (w : ℕ → ℕ → ℚ) (b : Option (ℕ → ℚ)) (inF outF : ℕ) (x : Tensor) : Option Tensor :=
  match x.shape.getLast? with
  | some d =>
    if d = inF then
      some ⟨x.shape.dropLast ++ [outF], fun i =>
        (∑ j ∈ Finset.range inF, w (i.getLastD 0) j * x.data (i.dropLast ++ [j])) +
          (match b with | some bf => bf (i.getLastD 0) | none => 0)⟩
    else none
  | none => none

def LinearM.apply (l : LinearM) (x : Tensor) : Option Tensor :=
  linWB l.w l.b l.inF l.outF x

/-- `nn.LayerNorm(dim)` state: normalised width, affine weight/bias, eps. -/
structure LayerNormM where
  dim : ℕ
  γ : ℕ → ℚ
  β : ℕ → ℚ
  eps : ℚ

/-- LayerNorm of a single vector `v` (read on `0..dim-1`) at coordinate `j`:
`(v j - mean) / sqrt (biasedVar + eps) * γ j + β j`. -/
def lnElem (ops : Ops) (ln : LayerNormM) (v : ℕ → ℚ) (j : ℕ) : ℚ :=
  let μ : ℚ := (∑ k ∈ Finset.range ln.dim, v k) / (ln.dim : ℚ)
  let σ2 : ℚ := (∑ k ∈ Finset.range ln.dim, (v k - μ) ^ 2) / (ln.dim : ℚ)
  (v j - μ) / ops.sqrt (σ2 + ln.eps) * ln.γ j + ln.β j

/-- `nn.LayerNorm` forward: normalises over the last axis; raises unless the
last dimension equals the normalised width. -/
def LayerNormM.apply (ops : Ops) (ln : LayerNormM) (x : Tensor) : Option Tensor :=
  match x.shape.getLast? with
  | some d =>
    if d = ln.dim then
      some ⟨x.shape, fun i => lnElem ops ln (fun k => x.data (i.dropLast ++ [k])) (i.getLastD 0)⟩
    else none
  | none => none

/-- `nn.Dropout(p)` state: drop probability, the `training` flag of the module, and
the pre-sampled Bernoulli keep-mask (the random state, passed in explicitly). -/
structure DropoutM where
  p : ℚ
  training : Bool
  keep : List ℕ → Bool

/-- Dropout forward: identity in eval mode; in training mode zero dropped
entries and rescale kept entries by `1/(1-p)`. -/
def DropoutM.apply (d : DropoutM) (x : Tensor) : Tensor :=
  if d.training then
    ⟨x.shape, fun i => if d.keep i then (1 / (1 - d.p)) * x.data i else 0⟩
  else x

/-- `torch.softmax(x, dim=-1)` via the abstract `exp`. -/
def softmaxLast (ops : Ops) (x : Tensor) : Tensor :=
  ⟨x.shape, fun i =>
    ops.exp (x.data i) /
      ∑ k ∈ Finset.range (x.shape.getLastD 0), ops.exp (x.data (i.dropLast ++ [k]))⟩

/-- `F.normalize(x, dim=-1)`: divide by the clamped L2 norm of the last-axis
fibre (torch clamps the norm below by `1e-12`). -/
def normalizeLast (ops : Ops) (x : Tensor) : Tensor :=
  ⟨x.shape, fun i =>
    x.data i /
      max (ops.sqrt (∑ k ∈ Finset.range (x.shape.getLastD 0),
        (x.data (i.dropLast ++ [k])) ^ 2)) (1 / 1000000000000)⟩

/-- Tuple-unpacking `B, L, N, C = x.shape` for a rank-4 tensor (python raises
on any other rank). -/
def shape4 (x : Tensor) : Option (ℕ × ℕ × ℕ × ℕ) :=
  match x.shape with
  | [a, b, c, d] => some (a, b, c, d)
  | _ => none

/-- Tuple-unpacking `B, N, C = x.shape` for a rank-3 tensor. -/
def shape3 (x : Tensor) : Option (ℕ × ℕ × ℕ) :=
  match x.shape with
  | [a, b, c] => some (a, b, c)
  | _ => none

/-- `x[:, :, :, 0]` on a rank-4 tensor; index error when the last axis is empty. -/
def selectLast0 (x : Tensor) : Option Tensor :=
  match x.shape with
  | [a, b, c, d] =>
    if 1 ≤ d then
      some ⟨[a, b, c], fun i => match i with
        | [i0, i1, i2] => x.data [i0, i1, i2, 0]
        | _ => 0⟩
    else none
  | _ => none

/-- `.permute(0, 2, 1)` on a rank-3 tensor. -/
def permute021 (x : Tensor) : Option Tensor :=
  match x.shape with
  | [a, b, c] =>
    some ⟨[a, c, b], fun i => match i with
      | [i0, i1, i2] => x.data [i0, i2, i1]
      | _ => 0⟩
  | _ => none

/-- `einops.rearrange` with pattern `b n (p t) -> b n p t`: split the last axis of
a rank-3 tensor into `(len/t, t)`; einops raises unless `t` divides the axis. -/
def rearrSplit (t : ℕ) (x : Tensor) : Option Tensor :=
  match x.shape with
  | [a, b, l] =>
    if 0 < t ∧ t ∣ l then
      some ⟨[a, b, l / t, t], fun i => match i with
        | [i0, i1, i2, i3] => x.data [i0, i1, i2 * t + i3]
        | _ => 0⟩
    else none
  | _ => none

/-- `einops.rearrange` with pattern `b (p d) c -> b p (d c)` and `d=2` (SegmentMerging,
HUTformer.py line 203): pair up adjacent positions, concatenating their
channel vectors; einops raises when the sequence axis has odd length. -/
def rearrMergePairs (x : Tensor) : Option Tensor :=
  match x.shape with
  | [a, l, c] =>
    if 2 ∣ l then
      some ⟨[a, l / 2, 2 * c], fun i => match i with
        | [i0, i1, i2] => x.data [i0, 2 * i1 + i2 / c, i2 % c]
        | _ => 0⟩
    else none
  | _ => none

/-- `einops.rearrange` with pattern `(b n) p d -> b n (p d)` (HUTformer.py
line 342); einops raises unless the first axis equals `B*N`. -/
def rearrUnmerge (bb nn : ℕ) (x : Tensor) : Option Tensor :=
  match x.shape with
  | [a, p, d] =>
    if a = bb * nn then
      some ⟨[bb, nn, p * d], fun i => match i with
        | [i0, i1, i2] => x.data [i0 * nn + i1, i2 / d, i2 % d]
        | _ => 0⟩
    else none
  | _ => none

/-- `x[:, -1, :, 1:]` on a rank-4 tensor (HUTformer.py lines 336/352): the
covariate channels of the most recent timestep; index error when axis 1 is
empty. -/
def lastTimeTail (x : Tensor) : Option Tensor :=
  match x.shape with
  | [a, l, c, d] =>
    if 1 ≤ l then
      some ⟨[a, c, d - 1], fun i => match i with
        | [i0, i1, i2] => x.data [i0, l - 1, i1, i2 + 1]
        | _ => 0⟩
    else none
  | _ => none

/-- `torch.cat([a, b], dim=-1)` for rank-3 tensors; raises unless the leading
dimensions agree. -/
def catLastDim (x y : Tensor) : Option Tensor :=
  match x.shape, y.shape with
  | [a, b, c], [a2, b2, c2] =>
    if a2 = a ∧ b2 = b then
      some ⟨[a, b, c + c2], fun i => match i with
        | [i0, i1, i2] => if i2 < c then x.data [i0, i1, i2] else y.data [i0, i1, i2 - c]
        | _ => 0⟩
    else none
  | _, _ => none

/-- `se.repeat(B, 1, 1)` for a rank-2 tensor: tile it `B` times along a new
leading axis. -/
def repeatLead (bb : ℕ) (x : Tensor) : Option Tensor :=
  match x.shape with
  | [a, b] =>
    some ⟨[bb, a, b], fun i => match i with
      | [_, i1, i2] => x.data [i1, i2]
      | _ => 0⟩
  | _ => none

/-- `x.repeat(1, 2, 1)` for a rank-3 tensor: tile axis 1 twice
(HUTformer.py line 356). -/
def repeatMid2 (x : Tensor) : Option Tensor :=
  match x.shape with
  | [a, l, c] =>
    some ⟨[a, 2 * l, c], fun i => match i with
      | [i0, i1, i2] => x.data [i0, i1 % l, i2]
      | _ => 0⟩
  | _ => none

/-- `x.reshape`/`x.view` with target shape `pre ++ [-1] ++ post`: torch infers
the hole as `numel / (prod pre * prod post)` and raises when the known product
is zero or does not divide `numel`. Data is re-read in row-major order. -/
def reshapeHole (pre post : List ℕ) (x : Tensor) : Option Tensor :=
  let q := pre.prod * post.prod
  if 0 < q ∧ q ∣ x.numel then
    let s := pre ++ (x.numel / q) :: post
    some ⟨s, fun i => x.data (unflatIdx x.shape (flatIdx s i))⟩
  else none

/-- `x.reshape(s)` with a fully explicit target shape; raises unless the
element count is preserved. -/
def reshapeExact (s : List ℕ) (x : Tensor) : Option Tensor :=
  if s.prod = x.numel then
    some ⟨s, fun i => x.data (unflatIdx x.shape (flatIdx s i))⟩
  else none

/-- `x.unsqueeze(-1)`. -/
def unsqLast (x : Tensor) : Tensor :=
  ⟨x.shape ++ [1], fun i => x.data i.dropLast⟩

/-- `x.unsqueeze(0)`. -/
def unsqHead (x : Tensor) : Tensor :=
  ⟨1 :: x.shape, fun i => x.data (i.drop 1)⟩

/-- `qkv[k]` for the rank-5 stacked qkv tensor (HUTformer.py line 150). -/
def selectHead (k : ℕ) (x : Tensor) : Option Tensor :=
  match x.shape with
  | a :: s =>
    if k < a then some ⟨s, fun i => x.data (k :: i)⟩ else none
  | _ => none

/-- `.permute(2, 0, 3, 1, 4)` on a rank-5 tensor (HUTformer.py line 149). -/
def permute20314 (x : Tensor) : Option Tensor :=
  match x.shape with
  | [a, b, c, d, e] =>
    some ⟨[c, a, d, b, e], fun i => match i with
      | [i0, i1, i2, i3, i4] => x.data [i1, i3, i0, i2, i4]
      | _ => 0⟩
  | _ => none

/-- `.transpose(-2, -1)` on a rank-4 tensor. -/
def transpose23 (x : Tensor) : Option Tensor :=
  match x.shape with
  | [a, b, c, d] =>
    some ⟨[a, b, d, c], fun i => match i with
      | [i0, i1, i2, i3] => x.data [i0, i1, i3, i2]
      | _ => 0⟩
  | _ => none

/-- `.transpose(1, 2)` (equally `.transpose(2, 1)`) on a rank-4 tensor. -/
def transpose12 (x : Tensor) : Option Tensor :=
  match x.shape with
  | [a, b, c, d] =>
    some ⟨[a, c, b, d], fun i => match i with
      | [i0, i1, i2, i3] => x.data [i0, i2, i1, i3]
      | _ => 0⟩
  | _ => none

/-- `.permute(2, 0, 1)` on a rank-3 tensor (HUTformer.py line 160). -/
def permute201 (x : Tensor) : Option Tensor :=
  match x.shape with
  | [a, b, c] =>
    some ⟨[c, a, b], fun i => match i with
      | [i0, i1, i2] => x.data [i1, i2, i0]
      | _ => 0⟩
  | _ => none

/-- Batched matrix multiply `x @ y` for rank-4 tensors of shapes
`[a,b,m,k] @ [a,b,k,n]`; raises on any mismatch. -/
def bmm4 (x y : Tensor) : Option Tensor :=
  match x.shape, y.shape with
  | [a, b, m, k], [a2, b2, k2, n] =>
    if a2 = a ∧ b2 = b ∧ k2 = k then
      some ⟨[a, b, m, n], fun i => match i with
        | [i0, i1, i2, i3] =>
          ∑ r ∈ Finset.range k, x.data [i0, i1, i2, r] * y.data [i0, i1, r, i3]
        | _ => 0⟩
    else none
  | _, _ => none

/-- `torch.einsum("blhe,bshe->bhls", q, k)` (FullAttention, line 219). -/
def einsumScores (q k : Tensor) : Option Tensor :=
  match q.shape, k.shape with
  | [b, l, h, e], [b2, s, h2, e2] =>
    if b2 = b ∧ h2 = h ∧ e2 = e then
      some ⟨[b, h, l, s], fun i => match i with
        | [i0, i1, i2, i3] =>
          ∑ j ∈ Finset.range e, q.data [i0, i2, i1, j] * k.data [i0, i3, i1, j]
        | _ => 0⟩
    else none
  | _, _ => none

/-- `torch.einsum("bhls,bshd->blhd", A, v)` (FullAttention, line 221). -/
def einsumValues (a v : Tensor) : Option Tensor :=
  match a.shape, v.shape with
  | [b, h, l, s], [b2, s2, h2, d] =>
    if b2 = b ∧ s2 = s ∧ h2 = h then
      some ⟨[b, l, h, d], fun i => match i with
        | [i0, i1, i2, i3] =>
          ∑ r ∈ Finset.range s, a.data [i0, i2, i1, r] * v.data [i0, r, i2, i3]
        | _ => 0⟩
    else none
  | _, _ => none

/-- Right-aligned torch broadcast of two (reversed) shape lists. -/
def bcastShapeRev : List ℕ → List ℕ → Option (List ℕ)
  | [], ys => some ys
  | xs, [] => some xs
  | x :: xs, y :: ys => do
    let rest ← bcastShapeRev xs ys
    if x = y then some (x :: rest)
    else if x = 1 then some (y :: rest)
    else if y = 1 then some (x :: rest)
    else none

/-- Map a (reversed) output index back into a (reversed) operand index,
collapsing broadcast dimensions of size 1 to coordinate 0. -/
def bcastIdxRev : List ℕ → List ℕ → List ℕ
  | [], _ => []
  | d :: ds, [] => (d - d) :: bcastIdxRev ds []
  | d :: ds, j :: js => (if d = 1 then 0 else j) :: bcastIdxRev ds js

/-- Elementwise binary op with torch broadcasting semantics. -/
def bcastOp (f : ℚ → ℚ → ℚ) (x y : Tensor) : Option Tensor := do
  let srev ← bcastShapeRev x.shape.reverse y.shape.reverse
  some ⟨srev.reverse, fun i =>
    f (x.data (bcastIdxRev x.shape.reverse i.reverse).reverse)
      (y.data (bcastIdxRev y.shape.reverse i.reverse).reverse)⟩

/-- Broadcast elementwise addition (`+`). -/
def badd (x y : Tensor) : Option Tensor := bcastOp (· + ·) x y

/-- Broadcast elementwise multiplication (`*`). -/
def bmul (x y : Tensor) : Option Tensor := bcastOp (· * ·) x y

/-- `table[index.view(-1)]`: row gather of a rank-2 table by an integer index
matrix; torch raises when an index is out of range (negative indices do not
occur here: the buffer is non-negative by construction). -/
def gatherRows (table : Tensor) (idx : TensorZ) : Option Tensor :=
  match table.shape, idx.shape with
  | [rows, cols], [n1, n2] =>
    if _h : ∀ p < n1 * n2, 0 ≤ idx.data [p / n2, p % n2] ∧ idx.data [p / n2, p % n2] < (rows : ℤ) then
      some ⟨[n1 * n2, cols], fun i => match i with
        | [p, c] => table.data [(idx.data [p / n2, p % n2]).toNat, c]
        | _ => 0⟩
    else none
  | _, _ => none

/-- The `relative_coords_table` buffer of `WindowAttention.__init__`
(HUTformer.py lines 95-111), with the default `pretrained_window_size=[0,0]`:
a `1 × (2Wh-1) × (2Ww-1) × 2` grid of offsets, normalised by the live window
extent minus one, scaled by 8, then sign-log2 compressed. The axis sizes are
written `(w-1)+w`, the length of `arange(-(w-1), w)` for every `w : ℕ`. -/
def relCoordsTableT (ops : Ops) (wh ww : ℕ) : Tensor :=
  ⟨[1, (wh - 1) + wh, (ww - 1) + ww, 2], fun i => match i with
    | [_, i1, i2, c] =>
      let raw : ℚ := if c = 0 then (i1 : ℚ) - ((wh : ℚ) - 1) else (i2 : ℚ) - ((ww : ℚ) - 1)
      let scaled : ℚ := 8 * (raw / (if c = 0 then (wh : ℚ) - 1 else (ww : ℚ) - 1))
      signQ scaled * ops.log2 (|scaled| + 1) / ops.log2 8
    | _ => 0⟩

/-- The `relative_position_index` buffer of `WindowAttention.__init__`
(HUTformer.py lines 113-124): position `a` in the flattened window has
coordinates `(a / Ww, a % Ww)`; the pairwise offsets are shifted to be
non-negative and combined with base `2*Ww - 1`. -/
def relPosIndexT (wh ww : ℕ) : TensorZ :=
  ⟨[wh * ww, wh * ww], fun i => match i with
    | [a, b] =>
      ((a / ww : ℕ) - (b / ww : ℕ) + ((wh : ℤ) - 1)) * (2 * (ww : ℤ) - 1) +
        ((a % ww : ℕ) - (b % ww : ℕ) + ((ww : ℤ) - 1))
    | _ => 0⟩

/-- `WindowAttention` module state (HUTformer.py lines 65-137). -/
structure WindowAttentionM where
  dim : ℕ
  numHeads : ℕ
  wh : ℕ
  ww : ℕ
  logitScale : Tensor
  cpb1 : LinearM
  cpb2 : LinearM
  relCoordsTable : Tensor
  relPosIndex : TensorZ
  qkv : LinearM
  qBias : Option (ℕ → ℚ)
  vBias : Option (ℕ → ℚ)
  attnDrop : DropoutM
  proj : LinearM
  projDrop : DropoutM

/-- `nn.Linear` as registered under name `nm`, with random init draws `θ`. -/
def mkLinear (θ : String → List ℕ → ℚ) (nm : String) (inF outF : ℕ) (hasBias : Bool) : LinearM :=
  ⟨inF, outF, fun o j => θ (nm ++ ".weight") [o, j],
    if hasBias then some (fun o => θ (nm ++ ".bias") [o]) else none⟩

/-- `nn.LayerNorm(dim)` as constructed (affine weight 1, bias 0, eps `1e-5`). -/
def mkLayerNorm (dim : ℕ) : LayerNormM :=
  ⟨dim, fun _ => 1, fun _ => 0, 1 / 100000⟩

/-- `nn.Dropout(p)` belonging to module `nm`, with keep-mask drawn from `ξ`. -/
def mkDropout (ξ : String → List ℕ → Bool) (training : Bool) (nm : String) (p : ℚ) : DropoutM :=
  ⟨p, training, ξ nm⟩

/-- `WindowAttention.__init__` (HUTformer.py lines 79-136): `logit_scale`
initialised to `log 10`, the two buffers computed from the window geometry,
`q_bias`/`v_bias` initialised to zero when enabled. -/
def mkWindowAttention (ops : Ops) (θ : String → List ℕ → ℚ) (training : Bool)
    (ξ : String → List ℕ → Bool) (nm : String) (dim wh ww numHeads : ℕ)
    (qkvBias : Bool) (attnDrop projDrop : ℚ) : WindowAttentionM where
  dim := dim
  numHeads := numHeads
  wh := wh
  ww := ww
  logitScale := ⟨[numHeads, 1, 1], fun _ => ops.log 10⟩
  cpb1 := mkLinear θ (nm ++ ".cpb_mlp.0") 2 512 true
  cpb2 := mkLinear θ (nm ++ ".cpb_mlp.2") 512 numHeads false
  relCoordsTable := relCoordsTableT ops wh ww
  relPosIndex := relPosIndexT wh ww
  qkv := mkLinear θ (nm ++ ".qkv") dim (dim * 3) false
  qBias := if qkvBias then some (fun _ => 0) else none
  vBias := if qkvBias then some (fun _ => 0) else none
  attnDrop := mkDropout ξ training (nm ++ ".attn_drop") attnDrop
  proj := mkLinear θ (nm ++ ".proj") dim dim true
  projDrop := mkDropout ξ training (nm ++ ".proj_drop") projDrop

/-- `self.cpb_mlp(self.relative_coords_table).view(-1, self.num_heads)`
(HUTformer.py line 157): the continuous relative position bias table
(the `cpb_mlp` is Linear → ReLU → Linear). -/
def WindowAttentionM.biasTable (wa : WindowAttentionM) : Option Tensor := do
  let c0 ← wa.cpb1.apply wa.relCoordsTable
  let c1 ← wa.cpb2.apply (emap reluQ c0)
  reshapeHole [] [wa.numHeads] c1

/-- `WindowAttention.forward`, lines 145-147: the assembled qkv bias
`torch.cat((q_bias, zeros_like(v_bias), v_bias))`, or `None` when there
is no `q_bias`. -/
def WindowAttentionM.qkvBias (wa : WindowAttentionM) : Option (ℕ → ℚ) :=
  match wa.qBias, wa.vBias with
  | some qb, some vb =>
    some (fun j => if j < wa.dim then qb j
      else if j < 2 * wa.dim then 0 else vb (j - 2 * wa.dim))
  | _, _ => none

/-- `WindowAttention.forward`, lines 144-155: project with the assembled
bias, split into per-head `q`, `k`, `v`, take cosine-similarity scores and
scale by the clamped-exponentiated `logit_scale`. Returns the scaled
scores together with `v`. -/
def WindowAttentionM.scores (ops : Ops) (wa : WindowAttentionM) (b_ n_ : ℕ)
    (x : Tensor) : Option (Tensor × Tensor) := do
  let qkv0 ← linWB wa.qkv.w wa.qkvBias wa.qkv.inF wa.qkv.outF x
  let qkv1 ← reshapeHole [b_, n_, 3, wa.numHeads] [] qkv0
  let qkv2 ← permute20314 qkv1
  let q ← selectHead 0 qkv2
  let k ← selectHead 1 qkv2
  let v ← selectHead 2 qkv2
  let kt ← transpose23 (normalizeLast ops k)
  let attn0 ← bmm4 (normalizeLast ops q) kt
  let logitScale := emap (fun s => ops.exp (min s (ops.log 100))) wa.logitScale
  let attn1 ← bmul attn0 logitScale
  return (attn1, v)

/-- `WindowAttention.forward`, lines 157-161: gather the continuous bias
through `relative_position_index`, reshape to `(Wh*Ww, Wh*Ww, nH)`, permute
heads to the front, pass through `16 * sigmoid`, and unsqueeze a batch axis. -/
def WindowAttentionM.relBias (ops : Ops) (wa : WindowAttentionM) : Option Tensor := do
  let rpbTable ← wa.biasTable
  let gathered ← gatherRows rpbTable wa.relPosIndex
  let rpb0 ← reshapeHole [wa.wh * wa.ww, wa.wh * wa.ww] [] gathered
  let rpb1 ← permute201 rpb0
  return unsqHead (emap (fun s => 16 * sigmoidQ ops s) rpb1)

/-- `WindowAttention.forward` with `mask=None` (HUTformer.py lines 138-177). -/
def WindowAttentionM.apply (ops : Ops) (wa : WindowAttentionM) (x : Tensor) : Option Tensor := do
  let (b_, n_, c_) ← shape3 x
  let (attn1, v) ← wa.scores ops b_ n_ x
  let rpb2 ← wa.relBias ops
  let attn2 ← badd attn1 rpb2
  let attn3 := wa.attnDrop.apply (softmaxLast ops attn2)
  let out0 ← bmm4 attn3 v
  let out1 ← transpose12 out0
  let out2 ← reshapeExact [b_, n_, c_] out1
  let out3 ← wa.proj.apply out2
  return wa.projDrop.apply out3

/-- `SegmentMerging` module state (HUTformer.py lines 196-203). -/
structure SegmentMergingM where
  dim : ℕ
  norm : LayerNormM

/-- `SegmentMerging.__init__(dim, norm_layer=nn.LayerNorm)`. -/
def mkSegmentMerging (dim : ℕ) : SegmentMergingM :=
  ⟨dim, mkLayerNorm (2 * dim)⟩

/-- `SegmentMerging.forward` (HUTformer.py line 203). -/
def SegmentMergingM.apply (ops : Ops) (sm : SegmentMergingM) (x : Tensor) : Option Tensor := do
  let m ← rearrMergePairs x
  sm.norm.apply ops m

/-- `FullAttention` module state (HUTformer.py lines 205-212). -/
structure FullAttentionM where
  scale : Option ℚ
  dropout : DropoutM

/-- `self.scale or 1./torch.sqrt(torch.tensor(E))` (HUTformer.py line 217):
python `or` falls through to the default on `None` and on a zero scale. -/
def faScale (ops : Ops) (fa : FullAttentionM) (e : ℕ) : ℚ :=
  match fa.scale with
  | some s => if s = 0 then 1 / ops.sqrt (e : ℚ) else s
  | none => 1 / ops.sqrt (e : ℚ)

/-- `FullAttention.forward` (HUTformer.py lines 214-223). -/
def FullAttentionM.apply (ops : Ops) (fa : FullAttentionM)
    (queries keys values : Tensor) : Option Tensor := do
  let (_b, _l, _h, e) ← shape4 queries
  let (_b2, _s, _h2, _d) ← shape4 values
  let scale := faScale ops fa e
  let scores ← einsumScores queries keys
  let a := fa.dropout.apply (softmaxLast ops (emap (fun t => scale * t) scores))
  let v ← einsumValues a values
  badd v queries

/-- `AttentionLayer` module state (HUTformer.py lines 226-244). -/
structure AttentionLayerM where
  dModel : ℕ
  nHeads : ℕ
  inner : FullAttentionM
  qP : LinearM
  kP : LinearM
  vP : LinearM
  oP : LinearM
  mix : Bool
  norm : LayerNormM
  norm1 : LayerNormM

/-- `AttentionLayer.__init__(d_model, n_heads, mix=True, dropout)` with the
default `d_keys = d_values = d_model // n_heads`. -/
def mkAttentionLayer (θ : String → List ℕ → ℚ) (training : Bool)
    (ξ : String → List ℕ → Bool) (nm : String) (dModel nHeads : ℕ)
    (mix : Bool) (drop : ℚ) : AttentionLayerM where
  dModel := dModel
  nHeads := nHeads
  inner := ⟨none, mkDropout ξ training (nm ++ ".inner_attention.dropout") drop⟩
  qP := mkLinear θ (nm ++ ".query_projection") dModel (dModel / nHeads * nHeads) true
  kP := mkLinear θ (nm ++ ".key_projection") dModel (dModel / nHeads * nHeads) true
  vP := mkLinear θ (nm ++ ".value_projection") dModel (dModel / nHeads * nHeads) true
  oP := mkLinear θ (nm ++ ".out_projection") (dModel / nHeads * nHeads) dModel true
  mix := mix
  norm := mkLayerNorm dModel
  norm1 := mkLayerNorm dModel

/-- `AttentionLayer.forward`, lines 252-255: layer-normalise queries, keys
and values independently, project each, and view into per-head shape. -/
def AttentionLayerM.projectQKV (ops : Ops) (al : AttentionLayerM) (b l s : ℕ)
    (queries keys values : Tensor) : Option (Tensor × Tensor × Tensor) := do
  let qn ← al.norm.apply ops queries
  let kn ← al.norm.apply ops keys
  let vn ← al.norm.apply ops values
  let qp0 ← al.qP.apply qn
  let qp ← reshapeHole [b, l, al.nHeads] [] qp0
  let kp0 ← al.kP.apply kn
  let kp ← reshapeHole [b, s, al.nHeads] [] kp0
  let vp0 ← al.vP.apply vn
  let vp ← reshapeHole [b, s, al.nHeads] [] vp0
  return (qp, kp, vp)

/-- `AttentionLayer.forward` (HUTformer.py lines 246-266). -/
def AttentionLayerM.apply (ops : Ops) (al : AttentionLayerM)
    (queries keys values : Tensor) : Option Tensor := do
  let (b, l, _c) ← shape3 queries
  let (_b2, s, _c2) ← shape3 keys
  let (qp, kp, vp) ← al.projectQKV ops b l s queries keys values
  let out0 ← al.inner.apply ops qp kp vp
  let out1 ← if al.mix then transpose12 out0 else pure out0
  let out2 ← reshapeHole [b, l] [] out1
  let n1 ← al.norm1.apply ops out2
  let op ← al.oP.apply n1
  badd op out2

/-- The two values accepted by the `assert` on `mode` (HUTformer.py line 272). -/
inductive Mode where
  | encoder
  | decoder
deriving DecidableEq

/-- Constructor arguments of `HUTformer.__init__` (HUTformer.py line 270). -/
structure HConfig where
  numNodes : ℕ
  lenHist : ℕ
  lenPred : ℕ
  lenPatch : ℕ

/-- `HUTformer` module state (HUTformer.py lines 268-317). Decoder submodules
are always present in the record; in encoder mode they are simply never read
(mirroring attributes that are never created). -/
structure HUTformerM where
  mode : Mode
  numNodes : ℕ
  lenHist : ℕ
  lenPred : ℕ
  lenPatch : ℕ
  numPatch : ℕ
  numHeads : ℕ
  embedDim : ℕ
  dimSE : ℕ
  dimU : ℕ
  drop : ℚ
  se : Tensor
  embedding : LinearM
  stpe : LinearM
  encoder1 : WindowAttentionM
  encoder2m : SegmentMergingM
  encoder2w : WindowAttentionM
  encoder3m : SegmentMergingM
  encoder3w : WindowAttentionM
  encoderProject : LinearM
  decoder1 : WindowAttentionM
  decoderProject0 : LinearM
  decoder2a : AttentionLayerM
  decoder2w : WindowAttentionM
  decoder3a : AttentionLayerM
  decoder3w : WindowAttentionM
  decoderProject : LinearM

/-- `HUTformer.__init__` after the mode assertion (HUTformer.py lines
273-309), with `pre_train=None`: derived sizes `num_patch = len_hist //
len_patch`, `num_heads=8`, `drop=0.1`, `embed_dim=64`, `dim_SE=16`,
`dim_U = num_patch*embed_dim`; `SE` and `embedding.weight` are
truncated-normal initialised (`std=.02`) from the raw uniform draws `θ`;
windows are `(2, num_patch//2)`, `(2, num_patch//4)`, `(2, num_patch//8)`
for the three encoder stages and `(2, num_patch//2)` for all decoder stages. -/
def mkHUTformer (ops : Ops) (θ : String → List ℕ → ℚ) (training : Bool)
    (ξ : String → List ℕ → Bool) (cfg : HConfig) (mode : Mode) : HUTformerM :=
  let numPatch := cfg.lenHist / cfg.lenPatch
  let embedDim := 64
  let dimSE := 16
  let dimU := numPatch * embedDim
  let drop : ℚ := 1 / 10
  { mode := mode
    numNodes := cfg.numNodes
    lenHist := cfg.lenHist
    lenPred := cfg.lenPred
    lenPatch := cfg.lenPatch
    numPatch := numPatch
    numHeads := 8
    embedDim := embedDim
    dimSE := dimSE
    dimU := dimU
    drop := drop
    se := ⟨[cfg.numNodes, dimSE], fun i => truncScalar ops 0 (1 / 50) (-2) 2 (θ "SE" i)⟩
    embedding :=
      { inF := cfg.lenPatch, outF := embedDim
        w := fun o j => truncScalar ops 0 (1 / 50) (-2) 2 (θ "embedding.weight" [o, j])
        b := some (fun o => θ "embedding.bias" [o]) }
    stpe := mkLinear θ "STPE" (numPatch * embedDim + dimSE + 2) dimU true
    encoder1 := mkWindowAttention ops θ training ξ "encoder_1" embedDim 2 (numPatch / 2) 8 true drop drop
    encoder2m := mkSegmentMerging embedDim
    encoder2w := mkWindowAttention ops θ training ξ "encoder_2.1" (embedDim * 2) 2 (numPatch / 4) 8 true drop drop
    encoder3m := mkSegmentMerging (embedDim * 2)
    encoder3w := mkWindowAttention ops θ training ξ "encoder_3.1" (embedDim * 4) 2 (numPatch / 8) 8 true drop drop
    encoderProject := mkLinear θ "encoder_project" dimU cfg.lenPred true
    decoder1 := mkWindowAttention ops θ training ξ "decoder_1" embedDim 2 (numPatch / 2) 8 true drop drop
    decoderProject0 := mkLinear θ "decoder_project_0" (embedDim * 2) embedDim true
    decoder2a := mkAttentionLayer θ training ξ "decoder_2.0" embedDim 8 true drop
    decoder2w := mkWindowAttention ops θ training ξ "decoder_2.1" embedDim 2 (numPatch / 2) 8 true drop drop
    decoder3a := mkAttentionLayer θ training ξ "decoder_3.0" embedDim 8 true drop
    decoder3w := mkWindowAttention ops θ training ξ "decoder_3.1" embedDim 2 (numPatch / 2) 8 true drop drop
    decoderProject := mkLinear θ "decoder_project" embedDim cfg.lenPatch true }

/-- `HUTformer.__init__` including the `assert` on `mode`
(HUTformer.py line 272): the only configuration validation performed at
construction; division by a zero `len_patch` (line 278) is the only other
way construction can raise, hence the guard `0 < len_patch`. -/
def HUTformerInit (ops : Ops) (θ : String → List ℕ → ℚ) (training : Bool)
    (ξ : String → List ℕ → Bool) (cfg : HConfig) (mode : String) : Option HUTformerM :=
  if 0 < cfg.lenPatch then
    if mode = "encoder" then some (mkHUTformer ops θ training ξ cfg Mode.encoder)
    else if mode = "decoder" then some (mkHUTformer ops θ training ξ cfg Mode.decoder)
    else none
  else none

/-- `HUTformer.forward`, lines 332-338 and (identically shaped) 348-354:
patch-embed a `[B, N, length]` sequence, concatenate the repeated spatial
embedding and the covariate slice, project through `STPE`, and reshape to
`[B*N, num_patch, embed_dim]` token sequences. -/
def HUTformerM.stpeEmbed (m : HUTformerM) (bb nn : ℕ)
    (xs cov : Tensor) : Option Tensor := do
  let patches ← rearrSplit m.lenPatch xs
  let e ← m.embedding.apply patches
  let s0 ← reshapeHole [bb, nn] [] e
  let se ← repeatLead bb m.se
  let s1 ← catLastDim s0 se
  let s2 ← catLastDim s1 cov
  let u0 ← m.stpe.apply s2
  reshapeHole [bb * nn] [m.embedDim] u0

/-- `HUTformer.forward`, lines 339-341: the three hierarchical encoder
stages (`encoder_2`/`encoder_3` are `Sequential(SegmentMerging,
WindowAttention)`), returning `(H_1, H_2, H_3)`. -/
def HUTformerM.encode (ops : Ops) (m : HUTformerM) (u : Tensor) :
    Option (Tensor × Tensor × Tensor) := do
  let h1 ← m.encoder1.apply ops u
  let h2m ← m.encoder2m.apply ops h1
  let h2 ← m.encoder2w.apply ops h2m
  let h3m ← m.encoder3m.apply ops h2
  let h3 ← m.encoder3w.apply ops h3m
  return (h1, h2, h3)

/-- `HUTformer.forward`, lines 355-358: the decoder stages with skip
connections from `H_1`/`H_2` (`decoder_2`/`decoder_3` are
`Sequential(AttentionLayer, WindowAttention)`), ending in
`decoder_project`. -/
def HUTformerM.decode (ops : Ops) (m : HUTformerM) (h1 h2 u2 : Tensor) :
    Option Tensor := do
  let d1 ← m.decoder1.apply ops u2
  let q2a ← m.decoderProject0.apply h2
  let q2 ← repeatMid2 q2a
  let d2a ← m.decoder2a.apply ops q2 d1 d1
  let d2 ← m.decoder2w.apply ops d2a
  let d3a ← m.decoder3a.apply ops h1 d2 d2
  let d3 ← m.decoder3w.apply ops d3a
  m.decoderProject.apply d3

/-- `HUTformer.forward` (HUTformer.py lines 320-360). The scalar
`batch_seen`/`epoch` counters and the `train` flag are accepted exactly as
in the source signature and, exactly as in the source body, never read
(dropout is gated by the `training` state each module holds, not by this
argument). In encoder mode the function returns before `future_data` is
ever touched. -/
def HUTformerM.forward (ops : Ops) (m : HUTformerM) (history future : Tensor)
    (batchSeen epoch : ℕ) (train : Bool) : Option Tensor := do
  let (bb, _ll, nn, _cc) ← shape4 history
  let x0 ← selectLast0 history
  let x1 ← permute021 x0
  let cov ← lastTimeTail history
  let u ← m.stpeEmbed bb nn x1 cov
  let (h1, h2, h3) ← m.encode ops u
  let pe0 ← rearrUnmerge bb nn h3
  let predictEncoder ← m.encoderProject.apply pe0
  match m.mode with
  | Mode.encoder => do
    let p1 ← permute021 predictEncoder
    return unsqLast p1
  | Mode.decoder => do
    let cov2 ← lastTimeTail future
    let u2 ← m.stpeEmbed bb nn predictEncoder cov2
    let dp ← m.decode ops h1 h2 u2
    let pr1 ← reshapeHole [bb, nn] [] dp
    let pr2 ← permute021 pr1
    return unsqLast pr2

/-- Substring membership on character lists: does `needle` occur at the
start of `hay`? -/
def chStarts : List Char → List Char → Bool
  | [], _ => true
  | _ :: _, [] => false
  | a :: as, b :: bs => a == b && chStarts as bs

/-- Substring membership on character lists (python `needle in hay`). -/
def chHasSub (needle : List Char) : List Char → Bool
  | [] => needle.isEmpty
  | c :: rest => chStarts needle (c :: rest) || chHasSub needle rest

/-- The python substring test (needle in hay) on strings (HUTformer.py line 313). -/
def strHasSub (needle hay : String) : Bool := chHasSub needle.toList hay.toList

/-- The parameter names registered by one `WindowAttention` submodule named
`nm`, in `named_parameters()` order (own parameters in assignment order,
then child modules in assignment order). -/
def waParamNames (nm : String) : List String :=
  [nm ++ ".logit_scale", nm ++ ".q_bias", nm ++ ".v_bias",
   nm ++ ".cpb_mlp.0.weight", nm ++ ".cpb_mlp.0.bias", nm ++ ".cpb_mlp.2.weight",
   nm ++ ".qkv.weight", nm ++ ".proj.weight", nm ++ ".proj.bias"]

/-- The parameter names registered by one `AttentionLayer` submodule named
`nm` (the inner `FullAttention` has no parameters). -/
def alParamNames (nm : String) : List String :=
  [nm ++ ".query_projection.weight", nm ++ ".query_projection.bias",
   nm ++ ".key_projection.weight", nm ++ ".key_projection.bias",
   nm ++ ".value_projection.weight", nm ++ ".value_projection.bias",
   nm ++ ".out_projection.weight", nm ++ ".out_projection.bias",
   nm ++ ".norm.weight", nm ++ ".norm.bias",
   nm ++ ".norm_1.weight", nm ++ ".norm_1.bias"]

/-- `self.named_parameters()` of a freshly constructed `HUTformer`
(HUTformer.py lines 285-309): in encoder mode construction returns before
any decoder submodule is created. -/
def hutformerParamNames (mode : Mode) : List String :=
  ["SE", "embedding.weight", "embedding.bias", "STPE.weight", "STPE.bias"]
  ++ waParamNames "encoder_1"
  ++ ["encoder_2.0.norm.weight", "encoder_2.0.norm.bias"] ++ waParamNames "encoder_2.1"
  ++ ["encoder_3.0.norm.weight", "encoder_3.0.norm.bias"] ++ waParamNames "encoder_3.1"
  ++ ["encoder_project.weight", "encoder_project.bias"]
  ++ (match mode with
      | Mode.encoder => []
      | Mode.decoder =>
        waParamNames "decoder_1"
        ++ ["decoder_project_0.weight", "decoder_project_0.bias"]
        ++ alParamNames "decoder_2.0" ++ waParamNames "decoder_2.1"
        ++ alParamNames "decoder_3.0" ++ waParamNames "decoder_3.1"
        ++ ["decoder_project.weight", "decoder_project.bias"])

/-- Every registered parameter starts with `requires_grad=True` (torch
default; `logit_scale` is even created with an explicit
`requires_grad=True`). -/
def freshParams (mode : Mode) : List (String × Bool) :=
  (hutformerParamNames mode).map (fun n => (n, true))

/-- One iteration of the freeze loop (HUTformer.py lines 312-313):
set `requires_grad` to `False` for every name that does not contain the substring decoder. -/
def freezeStep (p : String × Bool) : String × Bool :=
  if strHasSub "decoder" p.1 then p else (p.1, false)

/-- The freeze loop over `self.named_parameters()` (HUTformer.py lines
311-313). -/
def freezeNonDecoder (ps : List (String × Bool)) : List (String × Bool) :=
  ps.map freezeStep

/-- `(name, requires_grad)` for every parameter after `HUTformer.__init__`
finishes: the freeze loop runs exactly in decoder mode. -/
def hutformerParamsAfterInit (mode : Mode) : List (String × Bool) :=
  match mode with
  | Mode.encoder => freshParams Mode.encoder
  | Mode.decoder => freezeNonDecoder (freshParams Mode.decoder)

/-- An arbitrary concrete weight-draw supply (all zeros), used only to
evaluate the embedding at concrete configurations. -/
def trivTheta : String → List ℕ → ℚ := fun _ _ => 0

/-- An arbitrary concrete dropout keep-mask supply. -/
def trivXi : String → List ℕ → Bool := fun _ _ => false

/-- The all-zeros tensor of a given shape. -/
def zerosT (s : List ℕ) : Tensor := ⟨s, fun _ => 0⟩

set_option maxRecDepth 1000000

theorem shape4_eq (x : Tensor) (a b c d : ℕ) (h : x.shape = [a, b, c, d]) :
    shape4 x = some (a, b, c, d) := by
  simp [shape4, h]

theorem shape3_eq (x : Tensor) (a b c : ℕ) (h : x.shape = [a, b, c]) :
    shape3 x = some (a, b, c) := by
  simp [shape3, h]

theorem selectLast0_eq (x : Tensor) (a b c d : ℕ) (h : x.shape = [a, b, c, d])
    (hd : 1 ≤ d) :
    selectLast0 x = some ⟨[a, b, c], fun i => match i with
      | [i0, i1, i2] => x.data [i0, i1, i2, 0]
      | _ => 0⟩ := by
  simp [selectLast0, h, hd]

theorem permute021_eq (x : Tensor) (a b c : ℕ) (h : x.shape = [a, b, c]) :
    permute021 x = some ⟨[a, c, b], fun i => match i with
      | [i0, i1, i2] => x.data [i0, i2, i1]
      | _ => 0⟩ := by
  simp [permute021, h]

theorem rearrSplit_eq (t : ℕ) (x : Tensor) (a b l : ℕ) (h : x.shape = [a, b, l])
    (ht : 0 < t) (hdvd : t ∣ l) :
    rearrSplit t x = some ⟨[a, b, l / t, t], fun i => match i with
      | [i0, i1, i2, i3] => x.data [i0, i1, i2 * t + i3]
      | _ => 0⟩ := by
  simp [rearrSplit, h, ht, hdvd]

theorem rearrSplit_none (t : ℕ) (x : Tensor) (a b l : ℕ) (h : x.shape = [a, b, l])
    (hnd : ¬ t ∣ l) :
    rearrSplit t x = none := by
  simp [rearrSplit, h, hnd]

theorem rearrMergePairs_eq (x : Tensor) (a l c : ℕ) (h : x.shape = [a, l, c])
    (hdvd : 2 ∣ l) :
    rearrMergePairs x = some ⟨[a, l / 2, 2 * c], fun i => match i with
      | [i0, i1, i2] => x.data [i0, 2 * i1 + i2 / c, i2 % c]
      | _ => 0⟩ := by
  simp [rearrMergePairs, h, hdvd]

theorem rearrUnmerge_eq (bb nn : ℕ) (x : Tensor) (p d : ℕ)
    (h : x.shape = [bb * nn, p, d]) :
    rearrUnmerge bb nn x = some ⟨[bb, nn, p * d], fun i => match i with
      | [i0, i1, i2] => x.data [i0 * nn + i1, i2 / d, i2 % d]
      | _ => 0⟩ := by
  simp [rearrUnmerge, h]

theorem lastTimeTail_eq (x : Tensor) (a l c d : ℕ) (h : x.shape = [a, l, c, d])
    (hl : 1 ≤ l) :
    lastTimeTail x = some ⟨[a, c, d - 1], fun i => match i with
      | [i0, i1, i2] => x.data [i0, l - 1, i1, i2 + 1]
      | _ => 0⟩ := by
  simp [lastTimeTail, h, hl]

theorem catLastDim_eq (x y : Tensor) (a b c c2 : ℕ) (hx : x.shape = [a, b, c])
    (hy : y.shape = [a, b, c2]) :
    catLastDim x y = some ⟨[a, b, c + c2], fun i => match i with
      | [i0, i1, i2] => if i2 < c then x.data [i0, i1, i2] else y.data [i0, i1, i2 - c]
      | _ => 0⟩ := by
  simp [catLastDim, hx, hy]

theorem repeatLead_eq (bb : ℕ) (x : Tensor) (a b : ℕ) (h : x.shape = [a, b]) :
    repeatLead bb x = some ⟨[bb, a, b], fun i => match i with
      | [_, i1, i2] => x.data [i1, i2]
      | _ => 0⟩ := by
  simp [repeatLead, h]

theorem repeatMid2_eq (x : Tensor) (a l c : ℕ) (h : x.shape = [a, l, c]) :
    repeatMid2 x = some ⟨[a, 2 * l, c], fun i => match i with
      | [i0, i1, i2] => x.data [i0, i1 % l, i2]
      | _ => 0⟩ := by
  simp [repeatMid2, h]

theorem reshapeHole_eq (pre post : List ℕ) (x : Tensor) (k : ℕ)
    (hq : 0 < pre.prod * post.prod) (hdvd : pre.prod * post.prod ∣ x.numel)
    (hk : x.numel / (pre.prod * post.prod) = k) :
    reshapeHole pre post x = some ⟨pre ++ k :: post,
      fun i => x.data (unflatIdx x.shape (flatIdx (pre ++ k :: post) i))⟩ := by
  simp [reshapeHole, hq, hdvd, hk]

theorem reshapeExact_eq (s : List ℕ) (x : Tensor) (hs : s.prod = x.numel) :
    reshapeExact s x = some ⟨s, fun i => x.data (unflatIdx x.shape (flatIdx s i))⟩ := by
  simp [reshapeExact, hs]

theorem selectHead_eq (k : ℕ) (x : Tensor) (a : ℕ) (s : List ℕ)
    (h : x.shape = a :: s) (hk : k < a) :
    selectHead k x = some ⟨s, fun i => x.data (k :: i)⟩ := by
  unfold selectHead
  rw [h]
  simp [hk]

theorem permute20314_eq (x : Tensor) (a b c d e : ℕ)
    (h : x.shape = [a, b, c, d, e]) :
    permute20314 x = some ⟨[c, a, d, b, e], fun i => match i with
      | [i0, i1, i2, i3, i4] => x.data [i1, i3, i0, i2, i4]
      | _ => 0⟩ := by
  simp [permute20314, h]

theorem transpose23_eq (x : Tensor) (a b c d : ℕ) (h : x.shape = [a, b, c, d]) :
    transpose23 x = some ⟨[a, b, d, c], fun i => match i with
      | [i0, i1, i2, i3] => x.data [i0, i1, i3, i2]
      | _ => 0⟩ := by
  simp [transpose23, h]

theorem transpose12_eq (x : Tensor) (a b c d : ℕ) (h : x.shape = [a, b, c, d]) :
    transpose12 x = some ⟨[a, c, b, d], fun i => match i with
      | [i0, i1, i2, i3] => x.data [i0, i2, i1, i3]
      | _ => 0⟩ := by
  simp [transpose12, h]

theorem permute201_eq (x : Tensor) (a b c : ℕ) (h : x.shape = [a, b, c]) :
    permute201 x = some ⟨[c, a, b], fun i => match i with
      | [i0, i1, i2] => x.data [i1, i2, i0]
      | _ => 0⟩ := by
  simp [permute201, h]

theorem bmm4_eq (x y : Tensor) (a b m k n : ℕ) (hx : x.shape = [a, b, m, k])
    (hy : y.shape = [a, b, k, n]) :
    bmm4 x y = some ⟨[a, b, m, n], fun i => match i with
      | [i0, i1, i2, i3] =>
        ∑ r ∈ Finset.range k, x.data [i0, i1, i2, r] * y.data [i0, i1, r, i3]
      | _ => 0⟩ := by
  simp [bmm4, hx, hy]

theorem einsumScores_eq (q k : Tensor) (b l h e s : ℕ)
    (hq : q.shape = [b, l, h, e]) (hk : k.shape = [b, s, h, e]) :
    einsumScores q k = some ⟨[b, h, l, s], fun i => match i with
      | [i0, i1, i2, i3] =>
        ∑ j ∈ Finset.range e, q.data [i0, i2, i1, j] * k.data [i0, i3, i1, j]
      | _ => 0⟩ := by
  simp [einsumScores, hq, hk]

theorem einsumValues_eq (a v : Tensor) (b h l s d : ℕ)
    (ha : a.shape = [b, h, l, s]) (hv : v.shape = [b, s, h, d]) :
    einsumValues a v = some ⟨[b, l, h, d], fun i => match i with
      | [i0, i1, i2, i3] =>
        ∑ r ∈ Finset.range s, a.data [i0, i2, i1, r] * v.data [i0, r, i2, i3]
      | _ => 0⟩ := by
  simp [einsumValues, ha, hv]

theorem emap_shape (f : ℚ → ℚ) (x : Tensor) : (emap f x).shape = x.shape := rfl

theorem softmaxLast_shape (ops : Ops) (x : Tensor) :
    (softmaxLast ops x).shape = x.shape := rfl

theorem normalizeLast_shape (ops : Ops) (x : Tensor) :
    (normalizeLast ops x).shape = x.shape := rfl

theorem dropout_shape (d : DropoutM) (x : Tensor) : (d.apply x).shape = x.shape := by
  unfold DropoutM.apply
  split <;> rfl

theorem unsqLast_shape (x : Tensor) : (unsqLast x).shape = x.shape ++ [1] := rfl

theorem unsqHead_shape (x : Tensor) : (unsqHead x).shape = 1 :: x.shape := rfl

theorem linWB_eq (w : ℕ → ℕ → ℚ) (b : Option (ℕ → ℚ)) (inF outF : ℕ)
    (x : Tensor) (s : List ℕ) (h : x.shape = s ++ [inF]) :
    linWB w b inF outF x = some ⟨s ++ [outF], fun i =>
      (∑ j ∈ Finset.range inF, w (i.getLastD 0) j * x.data (i.dropLast ++ [j])) +
        (match b with | some bf => bf (i.getLastD 0) | none => 0)⟩ := by
  unfold linWB
  rw [h, List.getLast?_concat]
  simp [h]

theorem linApplyEq (l : LinearM) (x : Tensor) (s : List ℕ)
    (h : x.shape = s ++ [l.inF]) :
    l.apply x = some ⟨s ++ [l.outF], fun i =>
      (∑ j ∈ Finset.range l.inF, l.w (i.getLastD 0) j * x.data (i.dropLast ++ [j])) +
        (match l.b with | some bf => bf (i.getLastD 0) | none => 0)⟩ :=
  linWB_eq l.w l.b l.inF l.outF x s h

theorem lnApplyEq (ops : Ops) (ln : LayerNormM) (x : Tensor)
    (s : List ℕ) (h : x.shape = s ++ [ln.dim]) :
    ln.apply ops x = some ⟨s ++ [ln.dim], fun i =>
      lnElem ops ln (fun k => x.data (i.dropLast ++ [k])) (i.getLastD 0)⟩ := by
  unfold LayerNormM.apply
  rw [h, List.getLast?_concat]
  simp [h]

theorem bcastShapeRev_same (x : ℕ) (xs ys : List ℕ) :
    bcastShapeRev (x :: xs) (x :: ys) = (bcastShapeRev xs ys).map (x :: ·) := by
  rw [bcastShapeRev]
  cases h : bcastShapeRev xs ys with
  | none => simp [h]
  | some rest => simp [h]

theorem bcastShapeRev_oneR (x : ℕ) (xs ys : List ℕ) :
    bcastShapeRev (x :: xs) (1 :: ys) = (bcastShapeRev xs ys).map (x :: ·) := by
  rw [bcastShapeRev]
  cases h : bcastShapeRev xs ys with
  | none => simp [h]
  | some rest => by_cases hx : x = 1 <;> simp [h, hx]

theorem bcastShapeRev_oneL (x : ℕ) (xs ys : List ℕ) :
    bcastShapeRev (1 :: xs) (x :: ys) = (bcastShapeRev xs ys).map (x :: ·) := by
  rw [bcastShapeRev]
  cases h : bcastShapeRev xs ys with
  | none => simp [h]
  | some rest =>
    by_cases hx : 1 = x
    · subst hx
      simp [h]
    · simp [h, hx]

theorem bcastShapeRev_nilL (ys : List ℕ) : bcastShapeRev [] ys = some ys := by
  cases ys <;> rfl

theorem bcastShapeRev_nilR (xs : List ℕ) : bcastShapeRev xs [] = some xs := by
  cases xs <;> rfl

theorem bcastOp_eq (f : ℚ → ℚ → ℚ) (x y : Tensor) (s : List ℕ)
    (h : bcastShapeRev x.shape.reverse y.shape.reverse = some s) :
    bcastOp f x y = some ⟨s.reverse, fun i =>
      f (x.data (bcastIdxRev x.shape.reverse i.reverse).reverse)
        (y.data (bcastIdxRev y.shape.reverse i.reverse).reverse)⟩ := by
  simp [bcastOp, h]

theorem bcastIdxRev_valid {i s : List ℕ} (h : List.Forall₂ (· < ·) i s) :
    bcastIdxRev s i = i := by
  induction h with
  | nil => rfl
  | @cons j d js ds hjd _ ih =>
    unfold bcastIdxRev
    by_cases hd : d = 1
    · subst hd
      have hj : j = 0 := by omega
      simp [hj, ih]
    · simp [hd, ih]

theorem badd_shape_1hww (x y : Tensor) (a h w1 w2 : ℕ)
    (hx : x.shape = [a, h, w1, w2]) (hy : y.shape = [1, h, w1, w2]) :
    ∃ z, badd x y = some z ∧ z.shape = [a, h, w1, w2] := by
  have hs : bcastShapeRev x.shape.reverse y.shape.reverse = some [w2, w1, h, a] := by
    simp [hx, hy, bcastShapeRev_same, bcastShapeRev_oneR, bcastShapeRev_oneL, bcastShapeRev_nilR]
  exact ⟨_, bcastOp_eq _ x y _ hs, rfl⟩

theorem bmul_shape_h11 (x y : Tensor) (a h c d : ℕ)
    (hx : x.shape = [a, h, c, d]) (hy : y.shape = [h, 1, 1]) :
    ∃ z, bmul x y = some z ∧ z.shape = [a, h, c, d] := by
  have hs : bcastShapeRev x.shape.reverse y.shape.reverse = some [d, c, h, a] := by
    simp [hx, hy, bcastShapeRev_same, bcastShapeRev_oneR, bcastShapeRev_oneL, bcastShapeRev_nilR]
  exact ⟨_, bcastOp_eq _ x y _ hs, rfl⟩

theorem badd_shape_same4 (x y : Tensor) (a b c d : ℕ)
    (hx : x.shape = [a, b, c, d]) (hy : y.shape = [a, b, c, d]) :
    ∃ z, badd x y = some z ∧ z.shape = [a, b, c, d] ∧
      ∀ i0 i1 i2 i3, i0 < a → i1 < b → i2 < c → i3 < d →
        z.data [i0, i1, i2, i3] = x.data [i0, i1, i2, i3] + y.data [i0, i1, i2, i3] := by
  have hs : bcastShapeRev x.shape.reverse y.shape.reverse = some [d, c, b, a] := by
    simp [hx, hy, bcastShapeRev_same, bcastShapeRev_nilR]
  refine ⟨_, bcastOp_eq _ x y _ hs, rfl, ?_⟩
  intro i0 i1 i2 i3 h0 h1 h2 h3
  have hfx : List.Forall₂ (· < ·) [i3, i2, i1, i0] x.shape.reverse := by
    rw [hx]
    exact .cons h3 (.cons h2 (.cons h1 (.cons h0 .nil)))
  have hfy : List.Forall₂ (· < ·) [i3, i2, i1, i0] y.shape.reverse := by
    rw [hy]
    exact .cons h3 (.cons h2 (.cons h1 (.cons h0 .nil)))
  show _ + _ = _
  rw [show ([i0, i1, i2, i3] : List ℕ).reverse = [i3, i2, i1, i0] from rfl,
    bcastIdxRev_valid hfx, bcastIdxRev_valid hfy]
  rfl

theorem badd_shape_same3 (x y : Tensor) (a b c : ℕ)
    (hx : x.shape = [a, b, c]) (hy : y.shape = [a, b, c]) :
    ∃ z, badd x y = some z ∧ z.shape = [a, b, c] := by
  have hs : bcastShapeRev x.shape.reverse y.shape.reverse = some [c, b, a] := by
    simp [hx, hy, bcastShapeRev_same, bcastShapeRev_nilR]
  exact ⟨_, bcastOp_eq _ x y _ hs, rfl⟩

theorem gatherRows_eq (table : Tensor) (idx : TensorZ) (r c n1 n2 : ℕ)
    (ht : table.shape = [r, c]) (hi : idx.shape = [n1, n2])
    (hb : ∀ p < n1 * n2, 0 ≤ idx.data [p / n2, p % n2] ∧
      idx.data [p / n2, p % n2] < (r : ℤ)) :
    gatherRows table idx = some ⟨[n1 * n2, c], fun i => match i with
      | [p, cc] => table.data [(idx.data [p / n2, p % n2]).toNat, cc]
      | _ => 0⟩ := by
  unfold gatherRows
  rw [ht, hi]
  exact dif_pos hb

theorem relPosIndexT_bounds (w : ℕ) (hw : 0 < w) :
    ∀ p < 2 * w * (2 * w),
      0 ≤ (relPosIndexT 2 w).data [p / (2 * w), p % (2 * w)] ∧
      (relPosIndexT 2 w).data [p / (2 * w), p % (2 * w)] < ((3 * ((w - 1) + w) : ℕ) : ℤ) := by
  intro p hp
  have hw2 : 0 < 2 * w := by omega
  have hab : p / (2 * w) < 2 * w := Nat.div_lt_of_lt_mul hp
  have hbb : p % (2 * w) < 2 * w := Nat.mod_lt _ hw2
  simp only [relPosIndexT]
  set a := p / (2 * w) with hadef
  set b := p % (2 * w) with hbdef
  have h1 : a / w < 2 := by
    rw [Nat.div_lt_iff_lt_mul hw]
    omega
  have h2 : b / w < 2 := by
    rw [Nat.div_lt_iff_lt_mul hw]
    omega
  have h3 : a % w < w := Nat.mod_lt _ hw
  have h4 : b % w < w := Nat.mod_lt _ hw
  have h5 : (0 : ℤ) ≤ ((a / w : ℕ) : ℤ) := Int.natCast_nonneg _
  have h6 : (0 : ℤ) ≤ ((b / w : ℕ) : ℤ) := Int.natCast_nonneg _
  set dh : ℤ := (a / w : ℕ) - (b / w : ℕ) + ((2 : ℤ) - 1) with hdh
  have hdh0 : 0 ≤ dh := by omega
  have hdh2 : dh ≤ 2 := by omega
  have hbase : (0 : ℤ) ≤ 2 * (w : ℤ) - 1 := by omega
  have hp1 : dh * (2 * (w : ℤ) - 1) ≤ 2 * (2 * (w : ℤ) - 1) :=
    mul_le_mul_of_nonneg_right hdh2 hbase
  have hp0 : 0 ≤ dh * (2 * (w : ℤ) - 1) := mul_nonneg hdh0 hbase
  generalize hP : dh * (2 * (w : ℤ) - 1) = P at hp1 hp0 ⊢
  constructor <;> omega

theorem obind_some {α β : Type} (a : α) (f : α → Option β) :
    (some a >>= f : Option β) = f a := rfl

theorem opure_def {α : Type} (a : α) : (pure a : Option α) = some a := rfl

theorem mkLinear_inF (θ : String → List ℕ → ℚ) (nm : String) (i o : ℕ) (hb : Bool) :
    (mkLinear θ nm i o hb).inF = i := rfl

theorem mkLinear_outF (θ : String → List ℕ → ℚ) (nm : String) (i o : ℕ) (hb : Bool) :
    (mkLinear θ nm i o hb).outF = o := rfl

theorem relCoordsTableT_shape (ops : Ops) (wh ww : ℕ) :
    (relCoordsTableT ops wh ww).shape = [1, (wh - 1) + wh, (ww - 1) + ww, 2] := rfl

theorem relPosIndexT_shape (wh ww : ℕ) :
    (relPosIndexT wh ww).shape = [wh * ww, wh * ww] := rfl

theorem reshapeHole_eq' (pre post : List ℕ) (x : Tensor) (k bq : ℕ)
    (hB : 0 < bq) (hx : x.numel = k * bq) (hq : pre.prod * post.prod = bq) :
    reshapeHole pre post x = some ⟨pre ++ k :: post,
      fun i => x.data (unflatIdx x.shape (flatIdx (pre ++ k :: post) i))⟩ := by
  apply reshapeHole_eq
  · rw [hq]
    exact hB
  · rw [hq, hx]
    exact dvd_mul_left bq k
  · rw [hq, hx]
    exact Nat.mul_div_cancel _ hB

theorem mkWA_wh (ops : Ops) (θ : String → List ℕ → ℚ) (tr : Bool)
    (ξ : String → List ℕ → Bool) (nm : String) (dim wh ww hh : ℕ) (qb : Bool) (p1 p2 : ℚ) :
    (mkWindowAttention ops θ tr ξ nm dim wh ww hh qb p1 p2).wh = wh := rfl

theorem mkWA_ww (ops : Ops) (θ : String → List ℕ → ℚ) (tr : Bool)
    (ξ : String → List ℕ → Bool) (nm : String) (dim wh ww hh : ℕ) (qb : Bool) (p1 p2 : ℚ) :
    (mkWindowAttention ops θ tr ξ nm dim wh ww hh qb p1 p2).ww = ww := rfl

theorem mkWA_dim (ops : Ops) (θ : String → List ℕ → ℚ) (tr : Bool)
    (ξ : String → List ℕ → Bool) (nm : String) (dim wh ww hh : ℕ) (qb : Bool) (p1 p2 : ℚ) :
    (mkWindowAttention ops θ tr ξ nm dim wh ww hh qb p1 p2).dim = dim := rfl

theorem mkWA_numHeads (ops : Ops) (θ : String → List ℕ → ℚ) (tr : Bool)
    (ξ : String → List ℕ → Bool) (nm : String) (dim wh ww hh : ℕ) (qb : Bool) (p1 p2 : ℚ) :
    (mkWindowAttention ops θ tr ξ nm dim wh ww hh qb p1 p2).numHeads = hh := rfl

theorem mkWA_cpb1 (ops : Ops) (θ : String → List ℕ → ℚ) (tr : Bool)
    (ξ : String → List ℕ → Bool) (nm : String) (dim wh ww hh : ℕ) (qb : Bool) (p1 p2 : ℚ) :
    (mkWindowAttention ops θ tr ξ nm dim wh ww hh qb p1 p2).cpb1 =
      mkLinear θ (nm ++ ".cpb_mlp.0") 2 512 true := rfl

theorem mkWA_cpb2 (ops : Ops) (θ : String → List ℕ → ℚ) (tr : Bool)
    (ξ : String → List ℕ → Bool) (nm : String) (dim wh ww hh : ℕ) (qb : Bool) (p1 p2 : ℚ) :
    (mkWindowAttention ops θ tr ξ nm dim wh ww hh qb p1 p2).cpb2 =
      mkLinear θ (nm ++ ".cpb_mlp.2") 512 hh false := rfl

theorem mkWA_relCoordsTable (ops : Ops) (θ : String → List ℕ → ℚ) (tr : Bool)
    (ξ : String → List ℕ → Bool) (nm : String) (dim wh ww hh : ℕ) (qb : Bool) (p1 p2 : ℚ) :
    (mkWindowAttention ops θ tr ξ nm dim wh ww hh qb p1 p2).relCoordsTable =
      relCoordsTableT ops wh ww := rfl

theorem mkWA_relPosIndex (ops : Ops) (θ : String → List ℕ → ℚ) (tr : Bool)
    (ξ : String → List ℕ → Bool) (nm : String) (dim wh ww hh : ℕ) (qb : Bool) (p1 p2 : ℚ) :
    (mkWindowAttention ops θ tr ξ nm dim wh ww hh qb p1 p2).relPosIndex =
      relPosIndexT wh ww := rfl

theorem mkWA_qkv (ops : Ops) (θ : String → List ℕ → ℚ) (tr : Bool)
    (ξ : String → List ℕ → Bool) (nm : String) (dim wh ww hh : ℕ) (qb : Bool) (p1 p2 : ℚ) :
    (mkWindowAttention ops θ tr ξ nm dim wh ww hh qb p1 p2).qkv =
      mkLinear θ (nm ++ ".qkv") dim (dim * 3) false := rfl

theorem mkWA_logitScale (ops : Ops) (θ : String → List ℕ → ℚ) (tr : Bool)
    (ξ : String → List ℕ → Bool) (nm : String) (dim wh ww hh : ℕ) (qb : Bool) (p1 p2 : ℚ) :
    (mkWindowAttention ops θ tr ξ nm dim wh ww hh qb p1 p2).logitScale =
      (⟨[hh, 1, 1], fun _ => ops.log 10⟩ : Tensor) := rfl

theorem mkWA_proj (ops : Ops) (θ : String → List ℕ → ℚ) (tr : Bool)
    (ξ : String → List ℕ → Bool) (nm : String) (dim wh ww hh : ℕ) (qb : Bool) (p1 p2 : ℚ) :
    (mkWindowAttention ops θ tr ξ nm dim wh ww hh qb p1 p2).proj =
      mkLinear θ (nm ++ ".proj") dim dim true := rfl

theorem mkWA_relBias_spec (ops : Ops) (θ : String → List ℕ → ℚ) (tr : Bool)
    (ξ : String → List ℕ → Bool) (nm : String) (dim w hh : ℕ) (qb : Bool)
    (p1 p2 : ℚ) (hw : 0 < w) (hH : 0 < hh) :
    ∃ r, (mkWindowAttention ops θ tr ξ nm dim 2 w hh qb p1 p2).relBias ops = some r ∧
      r.shape = [1, hh, 2 * w, 2 * w] := by
  obtain ⟨y1, e1, s1⟩ : ∃ y, (mkLinear θ (nm ++ ".cpb_mlp.0") 2 512 true).apply
      (relCoordsTableT ops 2 w) = some y ∧ y.shape = [1, 3, (w - 1) + w, 512] :=
    ⟨_, linApplyEq _ _ [1, 3, (w - 1) + w] (by simp [mkLinear, relCoordsTableT]),
      by simp [mkLinear]⟩
  obtain ⟨y2, e2, s2⟩ : ∃ y, (mkLinear θ (nm ++ ".cpb_mlp.2") 512 hh false).apply
      (emap reluQ y1) = some y ∧ y.shape = [1, 3, (w - 1) + w, hh] :=
    ⟨_, linApplyEq _ _ [1, 3, (w - 1) + w] (by simp [mkLinear, emap_shape, s1]),
      by simp [mkLinear]⟩
  obtain ⟨y3, e3, s3⟩ : ∃ y, reshapeHole [] [hh] y2 = some y ∧
      y.shape = [3 * ((w - 1) + w), hh] :=
    ⟨_, reshapeHole_eq' _ _ _ (3 * ((w - 1) + w)) hh hH
      (by simp [Tensor.numel, s2]; try ring) (by simp), rfl⟩
  obtain ⟨y4, e4, s4⟩ : ∃ y, gatherRows y3 (relPosIndexT 2 w) = some y ∧
      y.shape = [2 * w * (2 * w), hh] := by
    refine ⟨_, gatherRows_eq _ _ (3 * ((w - 1) + w)) hh (2 * w) (2 * w) s3 rfl ?_, rfl⟩
    exact relPosIndexT_bounds w hw
  obtain ⟨y5, e5, s5⟩ : ∃ y, reshapeHole [2 * w, 2 * w] [] y4 = some y ∧
      y.shape = [2 * w, 2 * w, hh] :=
    ⟨_, reshapeHole_eq' _ _ _ hh (2 * w * (2 * w)) (by positivity)
      (by simp [Tensor.numel, s4]; try ring) (by simp; try ring), rfl⟩
  obtain ⟨y6, e6, s6⟩ : ∃ y, permute201 y5 = some y ∧ y.shape = [hh, 2 * w, 2 * w] :=
    ⟨_, permute201_eq _ _ _ _ s5, rfl⟩
  refine ⟨unsqHead (emap (fun s => 16 * sigmoidQ ops s) y6), ?_,
    by simp [unsqHead_shape, emap_shape, s6]⟩
  simp only [WindowAttentionM.relBias, WindowAttentionM.biasTable, mkWA_cpb1,
    mkWA_cpb2, mkWA_relCoordsTable, mkWA_relPosIndex, mkWA_numHeads, mkWA_wh, mkWA_ww,
    e1, obind_some, e2, e3, e4, e5, e6, opure_def]

theorem wa_scores_spec (ops : Ops) (wa : WindowAttentionM) (x : Tensor)
    (bb n dim hh q : ℕ) (hx : x.shape = [bb, n, dim])
    (hin : wa.qkv.inF = dim) (hout : wa.qkv.outF = dim * 3)
    (hnh : wa.numHeads = hh) (hls : wa.logitScale.shape = [hh, 1, 1])
    (hb : 0 < bb) (hn : 0 < n) (hH : 0 < hh) (hdim : dim = hh * q) :
    ∃ a v, wa.scores ops bb n x = some (a, v) ∧
      a.shape = [bb, hh, n, n] ∧ v.shape = [bb, hh, n, q] := by
  obtain ⟨y1, e1, s1⟩ : ∃ y, linWB wa.qkv.w wa.qkvBias wa.qkv.inF wa.qkv.outF x
      = some y ∧ y.shape = [bb, n, dim * 3] := by
    refine ⟨_, linWB_eq _ _ _ _ _ [bb, n] ?_, by simp [hout]⟩
    rw [hin]
    exact hx
  obtain ⟨y2, e2, s2⟩ : ∃ y, reshapeHole [bb, n, 3, hh] [] y1 = some y ∧
      y.shape = [bb, n, 3, hh, q] :=
    ⟨_, reshapeHole_eq' _ _ _ q (bb * (n * (3 * hh)))
      (by positivity) (by simp [Tensor.numel, s1, hdim]; try ring) (by simp; try ring), rfl⟩
  obtain ⟨y3, e3, s3⟩ : ∃ y, permute20314 y2 = some y ∧ y.shape = [3, bb, hh, n, q] :=
    ⟨_, permute20314_eq _ _ _ _ _ _ s2, rfl⟩
  obtain ⟨yq, eq1, sq⟩ : ∃ y, selectHead 0 y3 = some y ∧ y.shape = [bb, hh, n, q] :=
    ⟨_, selectHead_eq _ _ 3 _ s3 (by omega), rfl⟩
  obtain ⟨yk, ek, sk⟩ : ∃ y, selectHead 1 y3 = some y ∧ y.shape = [bb, hh, n, q] :=
    ⟨_, selectHead_eq _ _ 3 _ s3 (by omega), rfl⟩
  obtain ⟨yv, ev, sv⟩ : ∃ y, selectHead 2 y3 = some y ∧ y.shape = [bb, hh, n, q] :=
    ⟨_, selectHead_eq _ _ 3 _ s3 (by omega), rfl⟩
  obtain ⟨ykt, ekt, skt⟩ : ∃ y, transpose23 (normalizeLast ops yk) = some y ∧
      y.shape = [bb, hh, q, n] :=
    ⟨_, transpose23_eq _ _ _ _ _ (by rw [normalizeLast_shape, sk]), rfl⟩
  obtain ⟨ya, ea, sa⟩ : ∃ y, bmm4 (normalizeLast ops yq) ykt = some y ∧
      y.shape = [bb, hh, n, n] :=
    ⟨_, bmm4_eq _ _ _ _ _ _ _ (by rw [normalizeLast_shape, sq]) skt, rfl⟩
  obtain ⟨yf, ef, sf⟩ : ∃ y,
      bmul ya (emap (fun s => ops.exp (min s (ops.log 100))) wa.logitScale) = some y ∧
      y.shape = [bb, hh, n, n] :=
    bmul_shape_h11 _ _ _ _ _ _ sa (by rw [emap_shape, hls])
  refine ⟨yf, yv, ?_, sf, sv⟩
  simp only [WindowAttentionM.scores, hnh, e1, obind_some, e2, e3, eq1, ek, ev,
    ekt, ea, ef, opure_def]

theorem mkWA_apply_spec (ops : Ops) (θ : String → List ℕ → ℚ) (tr : Bool)
    (ξ : String → List ℕ → Bool) (nm : String) (dim w hh q : ℕ) (p1 p2 : ℚ)
    (x : Tensor) (bb : ℕ) (hx : x.shape = [bb, 2 * w, dim])
    (hb : 0 < bb) (hw : 0 < w) (hH : 0 < hh) (hdim : dim = hh * q) :
    ∃ y, (mkWindowAttention ops θ tr ξ nm dim 2 w hh true p1 p2).apply ops x = some y ∧
      y.shape = [bb, 2 * w, dim] := by
  obtain ⟨ya, yv, es, sa, sv⟩ := wa_scores_spec ops
    (mkWindowAttention ops θ tr ξ nm dim 2 w hh true p1 p2) x bb (2 * w) dim hh q hx
    (by simp [mkWA_qkv, mkLinear_inF]) (by simp [mkWA_qkv, mkLinear_outF])
    (mkWA_numHeads ops θ tr ξ nm dim 2 w hh true p1 p2)
    (by rw [mkWA_logitScale]) hb (by omega) hH hdim
  obtain ⟨yr, er, sr⟩ := mkWA_relBias_spec ops θ tr ξ nm dim w hh true p1 p2 hw hH
  obtain ⟨y2, e2, s2⟩ : ∃ y, badd ya yr = some y ∧ y.shape = [bb, hh, 2 * w, 2 * w] :=
    badd_shape_1hww _ _ _ _ _ _ sa sr
  obtain ⟨y3, e3, s3⟩ : ∃ y,
      bmm4 ((mkWindowAttention ops θ tr ξ nm dim 2 w hh true p1 p2).attnDrop.apply
        (softmaxLast ops y2)) yv = some y ∧ y.shape = [bb, hh, 2 * w, q] :=
    ⟨_, bmm4_eq _ _ _ _ _ _ _ (by rw [dropout_shape, softmaxLast_shape, s2]) sv, rfl⟩
  obtain ⟨y4, e4, s4⟩ : ∃ y, transpose12 y3 = some y ∧ y.shape = [bb, 2 * w, hh, q] :=
    ⟨_, transpose12_eq _ _ _ _ _ s3, rfl⟩
  obtain ⟨y5, e5, s5⟩ : ∃ y, reshapeExact [bb, 2 * w, dim] y4 = some y ∧
      y.shape = [bb, 2 * w, dim] :=
    ⟨_, reshapeExact_eq _ _ (by simp [Tensor.numel, s4, hdim]; try ring), rfl⟩
  obtain ⟨y6, e6, s6⟩ : ∃ y,
      (mkLinear θ (nm ++ ".proj") dim dim true).apply y5 = some y ∧
      y.shape = [bb, 2 * w, dim] :=
    ⟨_, linApplyEq _ _ [bb, 2 * w] (by simp [mkLinear, s5]), by simp [mkLinear]⟩
  refine ⟨(mkWindowAttention ops θ tr ξ nm dim 2 w hh true p1 p2).projDrop.apply y6,
    ?_, by rw [dropout_shape, s6]⟩
  simp only [WindowAttentionM.apply, shape3_eq _ _ _ _ hx, obind_some, es, er,
    e2, e3, e4, e5, mkWA_proj, e6, opure_def]

theorem mkLayerNorm_dim (d : ℕ) : (mkLayerNorm d).dim = d := rfl

theorem mkSM_apply_spec (ops : Ops) (dim : ℕ) (x : Tensor) (a l : ℕ)
    (hx : x.shape = [a, l, dim]) (hl : 2 ∣ l) :
    ∃ y, (mkSegmentMerging dim).apply ops x = some y ∧
      y.shape = [a, l / 2, 2 * dim] := by
  obtain ⟨y1, e1, s1⟩ : ∃ y, rearrMergePairs x = some y ∧
      y.shape = [a, l / 2, 2 * dim] :=
    ⟨_, rearrMergePairs_eq _ _ _ _ hx hl, rfl⟩
  obtain ⟨y2, e2, s2⟩ : ∃ y, (mkLayerNorm (2 * dim)).apply ops y1 = some y ∧
      y.shape = [a, l / 2, 2 * dim] :=
    ⟨_, lnApplyEq _ _ _ [a, l / 2] (by simp [mkLayerNorm, s1]), by simp [mkLayerNorm]⟩
  refine ⟨y2, ?_, s2⟩
  simp only [SegmentMergingM.apply, mkSegmentMerging, e1, obind_some, e2]

theorem fa_apply_spec (ops : Ops) (fa : FullAttentionM) (q k v : Tensor)
    (b l s hh e : ℕ) (hq : q.shape = [b, l, hh, e]) (hk : k.shape = [b, s, hh, e])
    (hv : v.shape = [b, s, hh, e]) :
    ∃ y, fa.apply ops q k v = some y ∧ y.shape = [b, l, hh, e] := by
  obtain ⟨y1, e1, s1⟩ : ∃ y, einsumScores q k = some y ∧ y.shape = [b, hh, l, s] :=
    ⟨_, einsumScores_eq _ _ _ _ _ _ _ hq hk, rfl⟩
  obtain ⟨y2, e2, s2⟩ : ∃ y, einsumValues
      (fa.dropout.apply (softmaxLast ops (emap (fun t => faScale ops fa e * t) y1))) v
      = some y ∧ y.shape = [b, l, hh, e] :=
    ⟨_, einsumValues_eq _ _ _ _ _ _ _ (by rw [dropout_shape, softmaxLast_shape, emap_shape, s1]) hv, rfl⟩
  obtain ⟨y3, e3, s3, _⟩ := badd_shape_same4 y2 q _ _ _ _ s2 hq
  refine ⟨y3, ?_, s3⟩
  simp only [FullAttentionM.apply, shape4_eq _ _ _ _ _ hq, shape4_eq _ _ _ _ _ hv,
    obind_some, e1, e2, e3, opure_def]

theorem mkAL_norm (θ : String → List ℕ → ℚ) (tr : Bool) (ξ : String → List ℕ → Bool)
    (nm : String) (dm hh : ℕ) (mx : Bool) (dp : ℚ) :
    (mkAttentionLayer θ tr ξ nm dm hh mx dp).norm = mkLayerNorm dm := rfl

theorem mkAL_norm1 (θ : String → List ℕ → ℚ) (tr : Bool) (ξ : String → List ℕ → Bool)
    (nm : String) (dm hh : ℕ) (mx : Bool) (dp : ℚ) :
    (mkAttentionLayer θ tr ξ nm dm hh mx dp).norm1 = mkLayerNorm dm := rfl

theorem mkAL_qP (θ : String → List ℕ → ℚ) (tr : Bool) (ξ : String → List ℕ → Bool)
    (nm : String) (dm hh : ℕ) (mx : Bool) (dp : ℚ) :
    (mkAttentionLayer θ tr ξ nm dm hh mx dp).qP =
      mkLinear θ (nm ++ ".query_projection") dm (dm / hh * hh) true := rfl

theorem mkAL_kP (θ : String → List ℕ → ℚ) (tr : Bool) (ξ : String → List ℕ → Bool)
    (nm : String) (dm hh : ℕ) (mx : Bool) (dp : ℚ) :
    (mkAttentionLayer θ tr ξ nm dm hh mx dp).kP =
      mkLinear θ (nm ++ ".key_projection") dm (dm / hh * hh) true := rfl

theorem mkAL_vP (θ : String → List ℕ → ℚ) (tr : Bool) (ξ : String → List ℕ → Bool)
    (nm : String) (dm hh : ℕ) (mx : Bool) (dp : ℚ) :
    (mkAttentionLayer θ tr ξ nm dm hh mx dp).vP =
      mkLinear θ (nm ++ ".value_projection") dm (dm / hh * hh) true := rfl

theorem mkAL_oP (θ : String → List ℕ → ℚ) (tr : Bool) (ξ : String → List ℕ → Bool)
    (nm : String) (dm hh : ℕ) (mx : Bool) (dp : ℚ) :
    (mkAttentionLayer θ tr ξ nm dm hh mx dp).oP =
      mkLinear θ (nm ++ ".out_projection") (dm / hh * hh) dm true := rfl

theorem mkAL_nHeads (θ : String → List ℕ → ℚ) (tr : Bool) (ξ : String → List ℕ → Bool)
    (nm : String) (dm hh : ℕ) (mx : Bool) (dp : ℚ) :
    (mkAttentionLayer θ tr ξ nm dm hh mx dp).nHeads = hh := rfl

theorem mkAL_mix (θ : String → List ℕ → ℚ) (tr : Bool) (ξ : String → List ℕ → Bool)
    (nm : String) (dm hh : ℕ) (mx : Bool) (dp : ℚ) :
    (mkAttentionLayer θ tr ξ nm dm hh mx dp).mix = mx := rfl

theorem mkAL64_projectQKV_spec (ops : Ops) (θ : String → List ℕ → ℚ) (tr : Bool)
    (ξ : String → List ℕ → Bool) (nm : String) (dp : ℚ) (q k v : Tensor)
    (b l s : ℕ) (hq : q.shape = [b, l, 64]) (hk : k.shape = [b, s, 64])
    (hv : v.shape = [b, s, 64]) (hb : 0 < b) (hl : 0 < l) (hs : 0 < s) :
    ∃ qp kp vp, (mkAttentionLayer θ tr ξ nm 64 8 true dp).projectQKV ops b l s q k v =
      some (qp, kp, vp) ∧ qp.shape = [b, l, 8, 8] ∧ kp.shape = [b, s, 8, 8] ∧
      vp.shape = [b, s, 8, 8] := by
  obtain ⟨y1, e1, s1⟩ : ∃ y, (mkLayerNorm 64).apply ops q = some y ∧ y.shape = [b, l, 64] :=
    ⟨_, lnApplyEq _ _ _ [b, l] (by simp [mkLayerNorm, hq]), by simp [mkLayerNorm]⟩
  obtain ⟨y2, e2, s2⟩ : ∃ y, (mkLayerNorm 64).apply ops k = some y ∧ y.shape = [b, s, 64] :=
    ⟨_, lnApplyEq _ _ _ [b, s] (by simp [mkLayerNorm, hk]), by simp [mkLayerNorm]⟩
  obtain ⟨y3, e3, s3⟩ : ∃ y, (mkLayerNorm 64).apply ops v = some y ∧ y.shape = [b, s, 64] :=
    ⟨_, lnApplyEq _ _ _ [b, s] (by simp [mkLayerNorm, hv]), by simp [mkLayerNorm]⟩
  obtain ⟨y4, e4, s4⟩ : ∃ y, (mkLinear θ (nm ++ ".query_projection") 64 (64 / 8 * 8) true).apply y1
      = some y ∧ y.shape = [b, l, 64] :=
    ⟨_, linApplyEq _ _ [b, l] (by simp [mkLinear, s1]), by simp [mkLinear]⟩
  obtain ⟨y5, e5, s5⟩ : ∃ y, reshapeHole [b, l, 8] [] y4 = some y ∧ y.shape = [b, l, 8, 8] :=
    ⟨_, reshapeHole_eq' _ _ _ 8 (b * (l * 8)) (by positivity)
      (by simp [Tensor.numel, s4]; try ring) (by simp; try ring), rfl⟩
  obtain ⟨y6, e6, s6⟩ : ∃ y, (mkLinear θ (nm ++ ".key_projection") 64 (64 / 8 * 8) true).apply y2
      = some y ∧ y.shape = [b, s, 64] :=
    ⟨_, linApplyEq _ _ [b, s] (by simp [mkLinear, s2]), by simp [mkLinear]⟩
  obtain ⟨y7, e7, s7⟩ : ∃ y, reshapeHole [b, s, 8] [] y6 = some y ∧ y.shape = [b, s, 8, 8] :=
    ⟨_, reshapeHole_eq' _ _ _ 8 (b * (s * 8)) (by positivity)
      (by simp [Tensor.numel, s6]; try ring) (by simp; try ring), rfl⟩
  obtain ⟨y8, e8, s8⟩ : ∃ y, (mkLinear θ (nm ++ ".value_projection") 64 (64 / 8 * 8) true).apply y3
      = some y ∧ y.shape = [b, s, 64] :=
    ⟨_, linApplyEq _ _ [b, s] (by simp [mkLinear, s3]), by simp [mkLinear]⟩
  obtain ⟨y9, e9, s9⟩ : ∃ y, reshapeHole [b, s, 8] [] y8 = some y ∧ y.shape = [b, s, 8, 8] :=
    ⟨_, reshapeHole_eq' _ _ _ 8 (b * (s * 8)) (by positivity)
      (by simp [Tensor.numel, s8]; try ring) (by simp; try ring), rfl⟩
  refine ⟨y5, y7, y9, ?_, s5, s7, s9⟩
  simp only [AttentionLayerM.projectQKV, mkAL_norm, mkAL_qP, mkAL_kP, mkAL_vP,
    mkAL_nHeads, e1, obind_some, e2, e3, e4, e5, e6, e7, e8, e9, opure_def]

theorem mkAL64_apply_spec (ops : Ops) (θ : String → List ℕ → ℚ) (tr : Bool)
    (ξ : String → List ℕ → Bool) (nm : String) (dp : ℚ) (q k v : Tensor)
    (b l s : ℕ) (hq : q.shape = [b, l, 64]) (hk : k.shape = [b, s, 64])
    (hv : v.shape = [b, s, 64]) (hb : 0 < b) (hl : 0 < l) (hs : 0 < s) :
    ∃ y, (mkAttentionLayer θ tr ξ nm 64 8 true dp).apply ops q k v = some y ∧
      y.shape = [b, l, 64] := by
  obtain ⟨qp, kp, vp, ep, sqp, skp, svp⟩ :=
    mkAL64_projectQKV_spec ops θ tr ξ nm dp q k v b l s hq hk hv hb hl hs
  obtain ⟨y1, e1, s1⟩ : ∃ y,
      (mkAttentionLayer θ tr ξ nm 64 8 true dp).inner.apply ops qp kp vp = some y ∧
      y.shape = [b, l, 8, 8] :=
    fa_apply_spec ops _ qp kp vp b l s 8 8 sqp skp svp
  obtain ⟨y2, e2, s2⟩ : ∃ y, transpose12 y1 = some y ∧ y.shape = [b, 8, l, 8] :=
    ⟨_, transpose12_eq _ _ _ _ _ s1, rfl⟩
  obtain ⟨y3, e3, s3⟩ : ∃ y, reshapeHole [b, l] [] y2 = some y ∧ y.shape = [b, l, 64] :=
    ⟨_, reshapeHole_eq' _ _ _ 64 (b * l) (by positivity)
      (by simp [Tensor.numel, s2]; try ring) (by simp; try ring), rfl⟩
  obtain ⟨y4, e4, s4⟩ : ∃ y, (mkLayerNorm 64).apply ops y3 = some y ∧ y.shape = [b, l, 64] :=
    ⟨_, lnApplyEq _ _ _ [b, l] (by simp [mkLayerNorm, s3]), by simp [mkLayerNorm]⟩
  obtain ⟨y5, e5, s5⟩ : ∃ y, (mkLinear θ (nm ++ ".out_projection") (64 / 8 * 8) 64 true).apply y4
      = some y ∧ y.shape = [b, l, 64] :=
    ⟨_, linApplyEq _ _ [b, l] (by simp [mkLinear, s4]), by simp [mkLinear]⟩
  obtain ⟨y6, e6, s6⟩ := badd_shape_same3 y5 y3 b l 64 s5 s3
  refine ⟨y6, ?_, s6⟩
  simp only [AttentionLayerM.apply, shape3_eq _ _ _ _ hq, shape3_eq _ _ _ _ hk,
    obind_some, ep, mkAL_mix, if_true, e1, e2, e3, mkAL_norm1, e4, mkAL_oP, e5, e6,
    opure_def]

theorem mkHUT_mode (ops : Ops) (θ : String → List ℕ → ℚ) (tr : Bool)
    (ξ : String → List ℕ → Bool) (cfg : HConfig) (md : Mode) :
    (mkHUTformer ops θ tr ξ cfg md).mode = md := rfl

theorem mkHUT_lenPatch (ops : Ops) (θ : String → List ℕ → ℚ) (tr : Bool)
    (ξ : String → List ℕ → Bool) (cfg : HConfig) (md : Mode) :
    (mkHUTformer ops θ tr ξ cfg md).lenPatch = cfg.lenPatch := rfl

theorem mkHUT_embedDim (ops : Ops) (θ : String → List ℕ → ℚ) (tr : Bool)
    (ξ : String → List ℕ → Bool) (cfg : HConfig) (md : Mode) :
    (mkHUTformer ops θ tr ξ cfg md).embedDim = 64 := rfl

theorem mkHUT_se_shape (ops : Ops) (θ : String → List ℕ → ℚ) (tr : Bool)
    (ξ : String → List ℕ → Bool) (cfg : HConfig) (md : Mode) :
    (mkHUTformer ops θ tr ξ cfg md).se.shape = [cfg.numNodes, 16] := rfl

theorem mkHUT_embedding_inF (ops : Ops) (θ : String → List ℕ → ℚ) (tr : Bool)
    (ξ : String → List ℕ → Bool) (cfg : HConfig) (md : Mode) :
    (mkHUTformer ops θ tr ξ cfg md).embedding.inF = cfg.lenPatch := rfl

theorem mkHUT_embedding_outF (ops : Ops) (θ : String → List ℕ → ℚ) (tr : Bool)
    (ξ : String → List ℕ → Bool) (cfg : HConfig) (md : Mode) :
    (mkHUTformer ops θ tr ξ cfg md).embedding.outF = 64 := rfl

theorem mkHUT_stpe (ops : Ops) (θ : String → List ℕ → ℚ) (tr : Bool)
    (ξ : String → List ℕ → Bool) (cfg : HConfig) (md : Mode) :
    (mkHUTformer ops θ tr ξ cfg md).stpe =
      mkLinear θ "STPE" (cfg.lenHist / cfg.lenPatch * 64 + 16 + 2)
        (cfg.lenHist / cfg.lenPatch * 64) true := rfl

theorem mkHUT_encoder1 (ops : Ops) (θ : String → List ℕ → ℚ) (tr : Bool)
    (ξ : String → List ℕ → Bool) (cfg : HConfig) (md : Mode) :
    (mkHUTformer ops θ tr ξ cfg md).encoder1 =
      mkWindowAttention ops θ tr ξ "encoder_1" 64 2 (cfg.lenHist / cfg.lenPatch / 2) 8
        true (1 / 10) (1 / 10) := rfl

theorem mkHUT_encoder2m (ops : Ops) (θ : String → List ℕ → ℚ) (tr : Bool)
    (ξ : String → List ℕ → Bool) (cfg : HConfig) (md : Mode) :
    (mkHUTformer ops θ tr ξ cfg md).encoder2m = mkSegmentMerging 64 := rfl

theorem mkHUT_encoder2w (ops : Ops) (θ : String → List ℕ → ℚ) (tr : Bool)
    (ξ : String → List ℕ → Bool) (cfg : HConfig) (md : Mode) :
    (mkHUTformer ops θ tr ξ cfg md).encoder2w =
      mkWindowAttention ops θ tr ξ "encoder_2.1" (64 * 2) 2
        (cfg.lenHist / cfg.lenPatch / 4) 8 true (1 / 10) (1 / 10) := rfl

theorem mkHUT_encoder3m (ops : Ops) (θ : String → List ℕ → ℚ) (tr : Bool)
    (ξ : String → List ℕ → Bool) (cfg : HConfig) (md : Mode) :
    (mkHUTformer ops θ tr ξ cfg md).encoder3m = mkSegmentMerging (64 * 2) := rfl

theorem mkHUT_encoder3w (ops : Ops) (θ : String → List ℕ → ℚ) (tr : Bool)
    (ξ : String → List ℕ → Bool) (cfg : HConfig) (md : Mode) :
    (mkHUTformer ops θ tr ξ cfg md).encoder3w =
      mkWindowAttention ops θ tr ξ "encoder_3.1" (64 * 4) 2
        (cfg.lenHist / cfg.lenPatch / 8) 8 true (1 / 10) (1 / 10) := rfl

theorem mkHUT_encoderProject (ops : Ops) (θ : String → List ℕ → ℚ) (tr : Bool)
    (ξ : String → List ℕ → Bool) (cfg : HConfig) (md : Mode) :
    (mkHUTformer ops θ tr ξ cfg md).encoderProject =
      mkLinear θ "encoder_project" (cfg.lenHist / cfg.lenPatch * 64) cfg.lenPred true := rfl

theorem mkHUT_decoder1 (ops : Ops) (θ : String → List ℕ → ℚ) (tr : Bool)
    (ξ : String → List ℕ → Bool) (cfg : HConfig) (md : Mode) :
    (mkHUTformer ops θ tr ξ cfg md).decoder1 =
      mkWindowAttention ops θ tr ξ "decoder_1" 64 2 (cfg.lenHist / cfg.lenPatch / 2) 8
        true (1 / 10) (1 / 10) := rfl

theorem mkHUT_decoderProject0 (ops : Ops) (θ : String → List ℕ → ℚ) (tr : Bool)
    (ξ : String → List ℕ → Bool) (cfg : HConfig) (md : Mode) :
    (mkHUTformer ops θ tr ξ cfg md).decoderProject0 =
      mkLinear θ "decoder_project_0" (64 * 2) 64 true := rfl

theorem mkHUT_decoder2a (ops : Ops) (θ : String → List ℕ → ℚ) (tr : Bool)
    (ξ : String → List ℕ → Bool) (cfg : HConfig) (md : Mode) :
    (mkHUTformer ops θ tr ξ cfg md).decoder2a =
      mkAttentionLayer θ tr ξ "decoder_2.0" 64 8 true (1 / 10) := rfl

theorem mkHUT_decoder2w (ops : Ops) (θ : String → List ℕ → ℚ) (tr : Bool)
    (ξ : String → List ℕ → Bool) (cfg : HConfig) (md : Mode) :
    (mkHUTformer ops θ tr ξ cfg md).decoder2w =
      mkWindowAttention ops θ tr ξ "decoder_2.1" 64 2 (cfg.lenHist / cfg.lenPatch / 2) 8
        true (1 / 10) (1 / 10) := rfl

theorem mkHUT_decoder3a (ops : Ops) (θ : String → List ℕ → ℚ) (tr : Bool)
    (ξ : String → List ℕ → Bool) (cfg : HConfig) (md : Mode) :
    (mkHUTformer ops θ tr ξ cfg md).decoder3a =
      mkAttentionLayer θ tr ξ "decoder_3.0" 64 8 true (1 / 10) := rfl

theorem mkHUT_decoder3w (ops : Ops) (θ : String → List ℕ → ℚ) (tr : Bool)
    (ξ : String → List ℕ → Bool) (cfg : HConfig) (md : Mode) :
    (mkHUTformer ops θ tr ξ cfg md).decoder3w =
      mkWindowAttention ops θ tr ξ "decoder_3.1" 64 2 (cfg.lenHist / cfg.lenPatch / 2) 8
        true (1 / 10) (1 / 10) := rfl

theorem mkHUT_decoderProject (ops : Ops) (θ : String → List ℕ → ℚ) (tr : Bool)
    (ξ : String → List ℕ → Bool) (cfg : HConfig) (md : Mode) :
    (mkHUTformer ops θ tr ξ cfg md).decoderProject =
      mkLinear θ "decoder_project" 64 cfg.lenPatch true := rfl

theorem linWB_none (w : ℕ → ℕ → ℚ) (b : Option (ℕ → ℚ)) (inF outF : ℕ)
    (x : Tensor) (s : List ℕ) (d : ℕ) (h : x.shape = s ++ [d]) (hne : d ≠ inF) :
    linWB w b inF outF x = none := by
  unfold linWB
  rw [h, List.getLast?_concat]
  simp [hne]

theorem obind_none {α β : Type} (f : α → Option β) :
    (none >>= f : Option β) = none := rfl

theorem mkHUT_stpeEmbed_spec (ops : Ops) (θ : String → List ℕ → ℚ) (tr : Bool)
    (ξ : String → List ℕ → Bool) (cfg : HConfig) (md : Mode)
    (bb l2 cd : ℕ) (xs cov : Tensor)
    (hxs : xs.shape = [bb, cfg.numNodes, l2]) (hcov : cov.shape = [bb, cfg.numNodes, cd])
    (ht : 0 < cfg.lenPatch) (hdvd : cfg.lenPatch ∣ l2)
    (hb : 0 < bb) (hn : 0 < cfg.numNodes)
    (hfit : l2 / cfg.lenPatch * 64 + 16 + cd =
      cfg.lenHist / cfg.lenPatch * 64 + 16 + 2) :
    ∃ u, (mkHUTformer ops θ tr ξ cfg md).stpeEmbed bb cfg.numNodes xs cov = some u ∧
      u.shape = [bb * cfg.numNodes, cfg.lenHist / cfg.lenPatch, 64] := by
  set n := cfg.numNodes
  set t := cfg.lenPatch
  set p := cfg.lenHist / cfg.lenPatch with hp
  obtain ⟨y1, e1, s1⟩ : ∃ y, rearrSplit t xs = some y ∧
      y.shape = [bb, n, l2 / t, t] :=
    ⟨_, rearrSplit_eq _ _ _ _ _ hxs ht hdvd, rfl⟩
  obtain ⟨y2, e2, s2⟩ : ∃ y, (mkHUTformer ops θ tr ξ cfg md).embedding.apply y1 = some y ∧
      y.shape = [bb, n, l2 / t, 64] := by
    refine ⟨_, linApplyEq _ _ [bb, n, l2 / t] ?_, by simp [mkHUT_embedding_outF]⟩
    rw [mkHUT_embedding_inF]
    exact s1
  obtain ⟨y3, e3, s3⟩ : ∃ y, reshapeHole [bb, n] [] y2 = some y ∧
      y.shape = [bb, n, l2 / t * 64] :=
    ⟨_, reshapeHole_eq' _ _ _ (l2 / t * 64) (bb * n) (by positivity)
      (by simp [Tensor.numel, s2]; try ring) (by simp; try ring), rfl⟩
  obtain ⟨y4, e4, s4⟩ : ∃ y, repeatLead bb (mkHUTformer ops θ tr ξ cfg md).se = some y ∧
      y.shape = [bb, n, 16] :=
    ⟨_, repeatLead_eq _ _ _ _ (mkHUT_se_shape ops θ tr ξ cfg md), rfl⟩
  obtain ⟨y5, e5, s5⟩ : ∃ y, catLastDim y3 y4 = some y ∧
      y.shape = [bb, n, l2 / t * 64 + 16] :=
    ⟨_, catLastDim_eq _ _ _ _ _ _ s3 s4, rfl⟩
  obtain ⟨y6, e6, s6⟩ : ∃ y, catLastDim y5 cov = some y ∧
      y.shape = [bb, n, l2 / t * 64 + 16 + cd] :=
    ⟨_, catLastDim_eq _ _ _ _ _ _ s5 hcov, rfl⟩
  obtain ⟨y7, e7, s7⟩ : ∃ y, (mkHUTformer ops θ tr ξ cfg md).stpe.apply y6 = some y ∧
      y.shape = [bb, n, p * 64] := by
    refine ⟨_, linApplyEq _ _ [bb, n] ?_, by rw [mkHUT_stpe]; simp [mkLinear, hp]⟩
    rw [mkHUT_stpe]
    simp only [mkLinear]
    rw [s6, hfit]
    simp [hp]
  obtain ⟨y8, e8, s8⟩ : ∃ y, reshapeHole [bb * n] [64] y7 = some y ∧
      y.shape = [bb * n, p, 64] :=
    ⟨_, reshapeHole_eq' _ _ _ p (bb * n * 64) (by positivity)
      (by simp [Tensor.numel, s7]; try ring) (by simp; try ring), rfl⟩
  refine ⟨y8, ?_, s8⟩
  simp only [HUTformerM.stpeEmbed, mkHUT_lenPatch, mkHUT_embedDim, e1, obind_some,
    e2, e3, e4, e5, e6, e7, e8, opure_def]

theorem mkHUT_stpeEmbed_none (ops : Ops) (θ : String → List ℕ → ℚ) (tr : Bool)
    (ξ : String → List ℕ → Bool) (cfg : HConfig) (md : Mode)
    (bb l2 cd : ℕ) (xs cov : Tensor)
    (hxs : xs.shape = [bb, cfg.numNodes, l2]) (hcov : cov.shape = [bb, cfg.numNodes, cd])
    (ht : 0 < cfg.lenPatch) (hdvd : cfg.lenPatch ∣ l2)
    (hb : 0 < bb) (hn : 0 < cfg.numNodes)
    (hfit : l2 / cfg.lenPatch * 64 + 16 + cd ≠
      cfg.lenHist / cfg.lenPatch * 64 + 16 + 2) :
    (mkHUTformer ops θ tr ξ cfg md).stpeEmbed bb cfg.numNodes xs cov = none := by
  set n := cfg.numNodes
  set t := cfg.lenPatch
  obtain ⟨y1, e1, s1⟩ : ∃ y, rearrSplit t xs = some y ∧
      y.shape = [bb, n, l2 / t, t] :=
    ⟨_, rearrSplit_eq _ _ _ _ _ hxs ht hdvd, rfl⟩
  obtain ⟨y2, e2, s2⟩ : ∃ y, (mkHUTformer ops θ tr ξ cfg md).embedding.apply y1 = some y ∧
      y.shape = [bb, n, l2 / t, 64] := by
    refine ⟨_, linApplyEq _ _ [bb, n, l2 / t] ?_, by simp [mkHUT_embedding_outF]⟩
    rw [mkHUT_embedding_inF]
    exact s1
  obtain ⟨y3, e3, s3⟩ : ∃ y, reshapeHole [bb, n] [] y2 = some y ∧
      y.shape = [bb, n, l2 / t * 64] :=
    ⟨_, reshapeHole_eq' _ _ _ (l2 / t * 64) (bb * n) (by positivity)
      (by simp [Tensor.numel, s2]; try ring) (by simp; try ring), rfl⟩
  obtain ⟨y4, e4, s4⟩ : ∃ y, repeatLead bb (mkHUTformer ops θ tr ξ cfg md).se = some y ∧
      y.shape = [bb, n, 16] :=
    ⟨_, repeatLead_eq _ _ _ _ (mkHUT_se_shape ops θ tr ξ cfg md), rfl⟩
  obtain ⟨y5, e5, s5⟩ : ∃ y, catLastDim y3 y4 = some y ∧
      y.shape = [bb, n, l2 / t * 64 + 16] :=
    ⟨_, catLastDim_eq _ _ _ _ _ _ s3 s4, rfl⟩
  obtain ⟨y6, e6, s6⟩ : ∃ y, catLastDim y5 cov = some y ∧
      y.shape = [bb, n, l2 / t * 64 + 16 + cd] :=
    ⟨_, catLastDim_eq _ _ _ _ _ _ s5 hcov, rfl⟩
  have e7 : (mkHUTformer ops θ tr ξ cfg md).stpe.apply y6 = none := by
    rw [mkHUT_stpe]
    unfold LinearM.apply
    exact linWB_none _ _ _ _ _ [bb, n] (l2 / t * 64 + 16 + cd)
      (by rw [s6]; rfl) (by simp only [mkLinear]; exact hfit)
  simp only [HUTformerM.stpeEmbed, mkHUT_lenPatch, mkHUT_embedDim, e1, obind_some,
    e2, e3, e4, e5, e6, e7, obind_none]

theorem mkHUT_stpeEmbed_nodvd_none (ops : Ops) (θ : String → List ℕ → ℚ) (tr : Bool)
    (ξ : String → List ℕ → Bool) (cfg : HConfig) (md : Mode)
    (bb l2 : ℕ) (xs cov : Tensor)
    (hxs : xs.shape = [bb, cfg.numNodes, l2])
    (hnd : ¬ cfg.lenPatch ∣ l2) :
    (mkHUTformer ops θ tr ξ cfg md).stpeEmbed bb cfg.numNodes xs cov = none := by
  have e1 : rearrSplit cfg.lenPatch xs = none :=
    rearrSplit_none _ _ _ _ _ hxs hnd
  simp only [HUTformerM.stpeEmbed, mkHUT_lenPatch, e1, obind_none]

theorem mkHUT_encode_spec (ops : Ops) (θ : String → List ℕ → ℚ) (tr : Bool)
    (ξ : String → List ℕ → Bool) (cfg : HConfig) (md : Mode) (u : Tensor) (bn : ℕ)
    (hu : u.shape = [bn, cfg.lenHist / cfg.lenPatch, 64]) (hbn : 0 < bn)
    (hdvd8 : 8 ∣ cfg.lenHist / cfg.lenPatch) (hpos : 0 < cfg.lenHist / cfg.lenPatch) :
    ∃ h1 h2 h3, (mkHUTformer ops θ tr ξ cfg md).encode ops u = some (h1, h2, h3) ∧
      h1.shape = [bn, cfg.lenHist / cfg.lenPatch, 64] ∧
      h2.shape = [bn, cfg.lenHist / cfg.lenPatch / 2, 128] ∧
      h3.shape = [bn, cfg.lenHist / cfg.lenPatch / 4, 256] := by
  set p := cfg.lenHist / cfg.lenPatch with hp
  obtain ⟨m, hm⟩ := hdvd8
  have hm0 : 0 < m := by omega
  have h2p : 2 * (p / 2) = p := by omega
  have h4p : 2 * (p / 4) = p / 2 := by omega
  have h8p : 2 * (p / 8) = p / 4 := by omega
  have hdd : p / 2 / 2 = p / 4 := by omega
  obtain ⟨y1, e1, s1⟩ : ∃ y,
      (mkWindowAttention ops θ tr ξ "encoder_1" 64 2 (p / 2) 8 true (1 / 10) (1 / 10)).apply
        ops u = some y ∧ y.shape = [bn, 2 * (p / 2), 64] :=
    mkWA_apply_spec ops θ tr ξ "encoder_1" 64 (p / 2) 8 8 (1 / 10) (1 / 10) u bn
      (by rw [hu, h2p]) hbn (by omega) (by norm_num) (by norm_num)
  rw [h2p] at s1
  obtain ⟨y2m, e2m, s2m⟩ : ∃ y, (mkSegmentMerging 64).apply ops y1 = some y ∧
      y.shape = [bn, p / 2, 2 * 64] :=
    mkSM_apply_spec ops 64 y1 bn p s1 (by omega)
  obtain ⟨y2, e2, s2⟩ : ∃ y,
      (mkWindowAttention ops θ tr ξ "encoder_2.1" (64 * 2) 2 (p / 4) 8 true (1 / 10) (1 / 10)).apply
        ops y2m = some y ∧ y.shape = [bn, 2 * (p / 4), 64 * 2] :=
    mkWA_apply_spec ops θ tr ξ "encoder_2.1" (64 * 2) (p / 4) 8 16 (1 / 10) (1 / 10) y2m bn
      (by rw [s2m, h4p]; try norm_num) hbn (by omega) (by norm_num) (by norm_num)
  rw [h4p] at s2
  obtain ⟨y3m, e3m, s3m⟩ : ∃ y, (mkSegmentMerging (64 * 2)).apply ops y2 = some y ∧
      y.shape = [bn, p / 2 / 2, 2 * (64 * 2)] :=
    mkSM_apply_spec ops (64 * 2) y2 bn (p / 2) s2 (by omega)
  rw [hdd] at s3m
  obtain ⟨y3, e3, s3⟩ : ∃ y,
      (mkWindowAttention ops θ tr ξ "encoder_3.1" (64 * 4) 2 (p / 8) 8 true (1 / 10) (1 / 10)).apply
        ops y3m = some y ∧ y.shape = [bn, 2 * (p / 8), 64 * 4] :=
    mkWA_apply_spec ops θ tr ξ "encoder_3.1" (64 * 4) (p / 8) 8 32 (1 / 10) (1 / 10) y3m bn
      (by rw [s3m, h8p]; try norm_num) hbn (by omega) (by norm_num) (by norm_num)
  rw [h8p] at s3
  refine ⟨y1, y2, y3, ?_, s1, by rw [s2]; try norm_num, by rw [s3]; try norm_num⟩
  simp only [HUTformerM.encode, mkHUT_encoder1, mkHUT_encoder2m, mkHUT_encoder2w,
    mkHUT_encoder3m, mkHUT_encoder3w, e1, obind_some, e2m, e2, e3m, e3, opure_def]

theorem mkHUT_decode_spec (ops : Ops) (θ : String → List ℕ → ℚ) (tr : Bool)
    (ξ : String → List ℕ → Bool) (cfg : HConfig) (md : Mode)
    (h1 h2 u2 : Tensor) (bn : ℕ)
    (hh1 : h1.shape = [bn, cfg.lenHist / cfg.lenPatch, 64])
    (hh2 : h2.shape = [bn, cfg.lenHist / cfg.lenPatch / 2, 128])
    (hu2 : u2.shape = [bn, cfg.lenHist / cfg.lenPatch, 64]) (hbn : 0 < bn)
    (hdvd8 : 8 ∣ cfg.lenHist / cfg.lenPatch) (hpos : 0 < cfg.lenHist / cfg.lenPatch) :
    ∃ y, (mkHUTformer ops θ tr ξ cfg md).decode ops h1 h2 u2 = some y ∧
      y.shape = [bn, cfg.lenHist / cfg.lenPatch, cfg.lenPatch] := by
  set p := cfg.lenHist / cfg.lenPatch with hp
  obtain ⟨m, hm⟩ := hdvd8
  have hm0 : 0 < m := by omega
  have h2p : 2 * (p / 2) = p := by omega
  obtain ⟨d1, ed1, sd1⟩ : ∃ y,
      (mkWindowAttention ops θ tr ξ "decoder_1" 64 2 (p / 2) 8 true (1 / 10) (1 / 10)).apply
        ops u2 = some y ∧ y.shape = [bn, 2 * (p / 2), 64] :=
    mkWA_apply_spec ops θ tr ξ "decoder_1" 64 (p / 2) 8 8 (1 / 10) (1 / 10) u2 bn
      (by rw [hu2, h2p]) hbn (by omega) (by norm_num) (by try norm_num)
  rw [h2p] at sd1
  obtain ⟨q2a, eq2a, sq2a⟩ : ∃ y,
      (mkLinear θ "decoder_project_0" (64 * 2) 64 true).apply h2 = some y ∧
      y.shape = [bn, p / 2, 64] :=
    ⟨_, linApplyEq _ _ [bn, p / 2] (by simp [mkLinear, hh2]), by simp [mkLinear]⟩
  obtain ⟨q2, eq2, sq2⟩ : ∃ y, repeatMid2 q2a = some y ∧ y.shape = [bn, p, 64] := by
    refine ⟨_, repeatMid2_eq _ _ _ _ sq2a, ?_⟩
    simp [h2p]
  obtain ⟨d2a, ed2a, sd2a⟩ : ∃ y,
      (mkAttentionLayer θ tr ξ "decoder_2.0" 64 8 true (1 / 10)).apply ops q2 d1 d1
      = some y ∧ y.shape = [bn, p, 64] :=
    mkAL64_apply_spec ops θ tr ξ "decoder_2.0" (1 / 10) q2 d1 d1 bn p p sq2 sd1 sd1
      hbn hpos hpos
  obtain ⟨d2, ed2, sd2⟩ : ∃ y,
      (mkWindowAttention ops θ tr ξ "decoder_2.1" 64 2 (p / 2) 8 true (1 / 10) (1 / 10)).apply
        ops d2a = some y ∧ y.shape = [bn, 2 * (p / 2), 64] :=
    mkWA_apply_spec ops θ tr ξ "decoder_2.1" 64 (p / 2) 8 8 (1 / 10) (1 / 10) d2a bn
      (by rw [sd2a, h2p]) hbn (by omega) (by norm_num) (by try norm_num)
  rw [h2p] at sd2
  obtain ⟨d3a, ed3a, sd3a⟩ : ∃ y,
      (mkAttentionLayer θ tr ξ "decoder_3.0" 64 8 true (1 / 10)).apply ops h1 d2 d2
      = some y ∧ y.shape = [bn, p, 64] :=
    mkAL64_apply_spec ops θ tr ξ "decoder_3.0" (1 / 10) h1 d2 d2 bn p p hh1 sd2 sd2
      hbn hpos hpos
  obtain ⟨d3, ed3, sd3⟩ : ∃ y,
      (mkWindowAttention ops θ tr ξ "decoder_3.1" 64 2 (p / 2) 8 true (1 / 10) (1 / 10)).apply
        ops d3a = some y ∧ y.shape = [bn, 2 * (p / 2), 64] :=
    mkWA_apply_spec ops θ tr ξ "decoder_3.1" 64 (p / 2) 8 8 (1 / 10) (1 / 10) d3a bn
      (by rw [sd3a, h2p]) hbn (by omega) (by norm_num) (by try norm_num)
  rw [h2p] at sd3
  obtain ⟨dp, edp, sdp⟩ : ∃ y,
      (mkLinear θ "decoder_project" 64 cfg.lenPatch true).apply d3 = some y ∧
      y.shape = [bn, p, cfg.lenPatch] :=
    ⟨_, linApplyEq _ _ [bn, p] (by simp [mkLinear, sd3]), by simp [mkLinear]⟩
  refine ⟨dp, ?_, sdp⟩
  simp only [HUTformerM.decode, mkHUT_decoder1, mkHUT_decoderProject0, mkHUT_decoder2a,
    mkHUT_decoder2w, mkHUT_decoder3a, mkHUT_decoder3w, mkHUT_decoderProject,
    ed1, obind_some, eq2a, eq2, ed2a, ed2, ed3a, ed3, edp, opure_def]

theorem mkHUT_forward_encoder_spec (ops : Ops) (θ : String → List ℕ → ℚ) (tr : Bool)
    (ξ : String → List ℕ → Bool) (cfg : HConfig) (hist fut : Tensor)
    (bb bs ep : ℕ) (trainArg : Bool)
    (hhist : hist.shape = [bb, cfg.lenHist, cfg.numNodes, 3])
    (hb : 0 < bb) (hn : 0 < cfg.numNodes) (ht : 0 < cfg.lenPatch)
    (hdvd : cfg.lenPatch ∣ cfg.lenHist) (h8 : 8 ∣ cfg.lenHist / cfg.lenPatch)
    (hpos : 0 < cfg.lenHist / cfg.lenPatch) :
    ∃ y, (mkHUTformer ops θ tr ξ cfg Mode.encoder).forward ops hist fut bs ep trainArg
      = some y ∧ y.shape = [bb, cfg.lenPred, cfg.numNodes, 1] := by
  set n := cfg.numNodes
  set t := cfg.lenPatch
  set lh := cfg.lenHist
  set p := cfg.lenHist / cfg.lenPatch with hp
  obtain ⟨m, hm⟩ := h8
  have hm0 : 0 < m := by omega
  have hl1 : 1 ≤ lh := lt_of_lt_of_le hpos (Nat.div_le_self _ _)
  obtain ⟨x0, e0, s0⟩ : ∃ y, selectLast0 hist = some y ∧ y.shape = [bb, lh, n] :=
    ⟨_, selectLast0_eq _ _ _ _ _ hhist (by norm_num), rfl⟩
  obtain ⟨x1, e1, s1⟩ : ∃ y, permute021 x0 = some y ∧ y.shape = [bb, n, lh] :=
    ⟨_, permute021_eq _ _ _ _ s0, rfl⟩
  obtain ⟨cov, ec, sc⟩ : ∃ y, lastTimeTail hist = some y ∧ y.shape = [bb, n, 2] :=
    ⟨_, lastTimeTail_eq _ _ _ _ _ hhist hl1, by norm_num⟩
  obtain ⟨u, eu, su⟩ :=
    mkHUT_stpeEmbed_spec ops θ tr ξ cfg Mode.encoder bb lh 2 x1 cov s1 sc ht hdvd hb hn rfl
  obtain ⟨h1, h2, h3, ee, sh1, sh2, sh3⟩ :=
    mkHUT_encode_spec ops θ tr ξ cfg Mode.encoder u (bb * n) su (by positivity)
      ⟨m, hm⟩ hpos
  obtain ⟨pe0, epe, spe⟩ : ∃ y, rearrUnmerge bb n h3 = some y ∧
      y.shape = [bb, n, p / 4 * 256] :=
    ⟨_, rearrUnmerge_eq _ _ _ _ _ sh3, rfl⟩
  obtain ⟨pe, epr, spr⟩ : ∃ y,
      (mkLinear θ "encoder_project" (p * 64) cfg.lenPred true).apply pe0 = some y ∧
      y.shape = [bb, n, cfg.lenPred] := by
    refine ⟨_, linApplyEq _ _ [bb, n] ?_, by simp [mkLinear]⟩
    simp only [mkLinear]
    rw [spe]
    have heq : p / 4 * 256 = p * 64 := by omega
    rw [heq]
    rfl
  obtain ⟨pp, epp, spp⟩ : ∃ y, permute021 pe = some y ∧
      y.shape = [bb, cfg.lenPred, n] :=
    ⟨_, permute021_eq _ _ _ _ spr, rfl⟩
  refine ⟨unsqLast pp, ?_, by rw [unsqLast_shape, spp]; rfl⟩
  simp only [HUTformerM.forward, shape4_eq _ _ _ _ _ hhist, obind_some, e0, e1, ec,
    eu, ee, epe, mkHUT_encoderProject, epr, mkHUT_mode, epp, opure_def]

theorem mkHUT_forward_decoder_spec (ops : Ops) (θ : String → List ℕ → ℚ) (tr : Bool)
    (ξ : String → List ℕ → Bool) (cfg : HConfig) (hist fut : Tensor)
    (bb bs ep lf : ℕ) (trainArg : Bool)
    (hhist : hist.shape = [bb, cfg.lenHist, cfg.numNodes, 3])
    (hfut : fut.shape = [bb, lf, cfg.numNodes, 3]) (hlf : 1 ≤ lf)
    (hb : 0 < bb) (hn : 0 < cfg.numNodes) (ht : 0 < cfg.lenPatch)
    (hdvd : cfg.lenPatch ∣ cfg.lenHist) (h8 : 8 ∣ cfg.lenHist / cfg.lenPatch)
    (hpos : 0 < cfg.lenHist / cfg.lenPatch)
    (hpred : cfg.lenPred = cfg.lenHist) :
    ∃ y, (mkHUTformer ops θ tr ξ cfg Mode.decoder).forward ops hist fut bs ep trainArg
      = some y ∧ y.shape = [bb, cfg.lenPred, cfg.numNodes, 1] := by
  set n := cfg.numNodes
  set t := cfg.lenPatch
  set lh := cfg.lenHist
  set p := cfg.lenHist / cfg.lenPatch with hp
  obtain ⟨m, hm⟩ := h8
  have hm0 : 0 < m := by omega
  have hl1 : 1 ≤ lh := lt_of_lt_of_le hpos (Nat.div_le_self _ _)
  obtain ⟨x0, e0, s0⟩ : ∃ y, selectLast0 hist = some y ∧ y.shape = [bb, lh, n] :=
    ⟨_, selectLast0_eq _ _ _ _ _ hhist (by norm_num), rfl⟩
  obtain ⟨x1, e1, s1⟩ : ∃ y, permute021 x0 = some y ∧ y.shape = [bb, n, lh] :=
    ⟨_, permute021_eq _ _ _ _ s0, rfl⟩
  obtain ⟨cov, ec, sc⟩ : ∃ y, lastTimeTail hist = some y ∧ y.shape = [bb, n, 2] :=
    ⟨_, lastTimeTail_eq _ _ _ _ _ hhist hl1, by norm_num⟩
  obtain ⟨u, eu, su⟩ :=
    mkHUT_stpeEmbed_spec ops θ tr ξ cfg Mode.decoder bb lh 2 x1 cov s1 sc ht hdvd hb hn rfl
  obtain ⟨h1, h2, h3, ee, sh1, sh2, sh3⟩ :=
    mkHUT_encode_spec ops θ tr ξ cfg Mode.decoder u (bb * n) su (by positivity)
      ⟨m, hm⟩ hpos
  obtain ⟨pe0, epe, spe⟩ : ∃ y, rearrUnmerge bb n h3 = some y ∧
      y.shape = [bb, n, p / 4 * 256] :=
    ⟨_, rearrUnmerge_eq _ _ _ _ _ sh3, rfl⟩
  obtain ⟨pe, epr, spr⟩ : ∃ y,
      (mkLinear θ "encoder_project" (p * 64) cfg.lenPred true).apply pe0 = some y ∧
      y.shape = [bb, n, cfg.lenPred] := by
    refine ⟨_, linApplyEq _ _ [bb, n] ?_, by simp [mkLinear]⟩
    simp only [mkLinear]
    rw [spe]
    have heq : p / 4 * 256 = p * 64 := by omega
    rw [heq]
    rfl
  obtain ⟨cov2, ec2, sc2⟩ : ∃ y, lastTimeTail fut = some y ∧ y.shape = [bb, n, 2] :=
    ⟨_, lastTimeTail_eq _ _ _ _ _ hfut hlf, by norm_num⟩
  have spr2 : pe.shape = [bb, n, lh] := by rw [spr, hpred]
  obtain ⟨u2, eu2, su2⟩ :=
    mkHUT_stpeEmbed_spec ops θ tr ξ cfg Mode.decoder bb lh 2 pe cov2 spr2 sc2 ht hdvd hb hn rfl
  obtain ⟨dp, edp, sdp⟩ :=
    mkHUT_decode_spec ops θ tr ξ cfg Mode.decoder h1 h2 u2 (bb * n) sh1 sh2 su2
      (by positivity) ⟨m, hm⟩ hpos
  obtain ⟨pr1, er1, sr1⟩ : ∃ y, reshapeHole [bb, n] [] dp = some y ∧
      y.shape = [bb, n, cfg.lenPred] := by
    refine ⟨_, reshapeHole_eq' _ _ _ (p * t) (bb * n) (by positivity)
      (by simp [Tensor.numel, sdp]; try ring) (by simp; try ring), ?_⟩
    have heq2 : p * t = lh := Nat.div_mul_cancel hdvd
    simp [heq2, hpred]
  obtain ⟨pr2, er2, sr2⟩ : ∃ y, permute021 pr1 = some y ∧
      y.shape = [bb, cfg.lenPred, n] :=
    ⟨_, permute021_eq _ _ _ _ sr1, rfl⟩
  refine ⟨unsqLast pr2, ?_, by rw [unsqLast_shape, sr2]; rfl⟩
  simp only [HUTformerM.forward, shape4_eq _ _ _ _ _ hhist, obind_some, e0, e1, ec,
    eu, ee, epe, mkHUT_encoderProject, epr, mkHUT_mode, ec2, eu2, edp, er1, er2,
    opure_def]

theorem mkHUT_forward_decoder_mismatch_none (ops : Ops) (θ : String → List ℕ → ℚ)
    (tr : Bool) (ξ : String → List ℕ → Bool) (cfg : HConfig) (hist fut : Tensor)
    (bb bs ep lf : ℕ) (trainArg : Bool)
    (hhist : hist.shape = [bb, cfg.lenHist, cfg.numNodes, 3])
    (hfut : fut.shape = [bb, lf, cfg.numNodes, 3]) (hlf : 1 ≤ lf)
    (hb : 0 < bb) (hn : 0 < cfg.numNodes) (ht : 0 < cfg.lenPatch)
    (hdvd : cfg.lenPatch ∣ cfg.lenHist) (h8 : 8 ∣ cfg.lenHist / cfg.lenPatch)
    (hpos : 0 < cfg.lenHist / cfg.lenPatch)
    (hpred : cfg.lenPred ≠ cfg.lenHist) :
    (mkHUTformer ops θ tr ξ cfg Mode.decoder).forward ops hist fut bs ep trainArg
      = none := by
  obtain ⟨m, hm⟩ := h8
  have hm0 : 0 < m := by omega
  have hl1 : 1 ≤ cfg.lenHist := lt_of_lt_of_le hpos (Nat.div_le_self _ _)
  obtain ⟨x0, e0, s0⟩ : ∃ y, selectLast0 hist = some y ∧
      y.shape = [bb, cfg.lenHist, cfg.numNodes] :=
    ⟨_, selectLast0_eq _ _ _ _ _ hhist (by norm_num), rfl⟩
  obtain ⟨x1, e1, s1⟩ : ∃ y, permute021 x0 = some y ∧
      y.shape = [bb, cfg.numNodes, cfg.lenHist] :=
    ⟨_, permute021_eq _ _ _ _ s0, rfl⟩
  obtain ⟨cov, ec, sc⟩ : ∃ y, lastTimeTail hist = some y ∧
      y.shape = [bb, cfg.numNodes, 2] :=
    ⟨_, lastTimeTail_eq _ _ _ _ _ hhist hl1, by norm_num⟩
  obtain ⟨u, eu, su⟩ :=
    mkHUT_stpeEmbed_spec ops θ tr ξ cfg Mode.decoder bb cfg.lenHist 2 x1 cov s1 sc
      ht hdvd hb hn rfl
  obtain ⟨h1, h2, h3, ee, sh1, sh2, sh3⟩ :=
    mkHUT_encode_spec ops θ tr ξ cfg Mode.decoder u (bb * cfg.numNodes) su
      (by positivity) ⟨m, hm⟩ hpos
  obtain ⟨pe0, epe, spe⟩ : ∃ y, rearrUnmerge bb cfg.numNodes h3 = some y ∧
      y.shape = [bb, cfg.numNodes, cfg.lenHist / cfg.lenPatch / 4 * 256] :=
    ⟨_, rearrUnmerge_eq _ _ _ _ _ sh3, rfl⟩
  obtain ⟨pe, epr, spr⟩ : ∃ y,
      (mkLinear θ "encoder_project" (cfg.lenHist / cfg.lenPatch * 64)
        cfg.lenPred true).apply pe0 = some y ∧
      y.shape = [bb, cfg.numNodes, cfg.lenPred] := by
    refine ⟨_, linApplyEq _ _ [bb, cfg.numNodes] ?_, by simp [mkLinear]⟩
    simp only [mkLinear]
    rw [spe]
    have heq : cfg.lenHist / cfg.lenPatch / 4 * 256 =
        cfg.lenHist / cfg.lenPatch * 64 := by omega
    rw [heq]
    rfl
  obtain ⟨cov2, ec2, sc2⟩ : ∃ y, lastTimeTail fut = some y ∧
      y.shape = [bb, cfg.numNodes, 2] :=
    ⟨_, lastTimeTail_eq _ _ _ _ _ hfut hlf, by norm_num⟩
  have eu2 : (mkHUTformer ops θ tr ξ cfg Mode.decoder).stpeEmbed bb cfg.numNodes
      pe cov2 = none := by
    by_cases hd : cfg.lenPatch ∣ cfg.lenPred
    · refine mkHUT_stpeEmbed_none ops θ tr ξ cfg Mode.decoder bb cfg.lenPred 2 pe cov2
        spr sc2 ht hd hb hn ?_
      obtain ⟨k, hk⟩ := hd
      obtain ⟨j, hj⟩ := hdvd
      have hq1 : cfg.lenPred / cfg.lenPatch = k := by
        rw [hk]
        exact Nat.mul_div_cancel_left _ ht
      have hq2 : cfg.lenHist / cfg.lenPatch = j := by
        rw [hj]
        exact Nat.mul_div_cancel_left _ ht
      rw [hq1, hq2]
      intro hcon
      apply hpred
      have hkj : k = j := by omega
      rw [hk, hj, hkj]
    · exact mkHUT_stpeEmbed_nodvd_none ops θ tr ξ cfg Mode.decoder bb cfg.lenPred
        pe cov2 spr hd
  simp only [HUTformerM.forward, shape4_eq _ _ _ _ _ hhist, obind_some, e0, e1, ec,
    eu, ee, epe, mkHUT_encoderProject, epr, mkHUT_mode, ec2, eu2, obind_none]

theorem mkHUT_forward_badC_none (ops : Ops) (θ : String → List ℕ → ℚ) (tr : Bool)
    (ξ : String → List ℕ → Bool) (cfg : HConfig) (md : Mode) (hist fut : Tensor)
    (bb bs ep cc : ℕ) (trainArg : Bool)
    (hhist : hist.shape = [bb, cfg.lenHist, cfg.numNodes, cc])
    (hb : 0 < bb) (hn : 0 < cfg.numNodes) (ht : 0 < cfg.lenPatch)
    (hdvd : cfg.lenPatch ∣ cfg.lenHist) (hpos : 0 < cfg.lenHist / cfg.lenPatch)
    (hc2 : 2 ≤ cc) (hc3 : cc ≠ 3) :
    (mkHUTformer ops θ tr ξ cfg md).forward ops hist fut bs ep trainArg = none := by
  have hl1 : 1 ≤ cfg.lenHist := lt_of_lt_of_le hpos (Nat.div_le_self _ _)
  obtain ⟨x0, e0, s0⟩ : ∃ y, selectLast0 hist = some y ∧
      y.shape = [bb, cfg.lenHist, cfg.numNodes] :=
    ⟨_, selectLast0_eq _ _ _ _ _ hhist (by omega), rfl⟩
  obtain ⟨x1, e1, s1⟩ : ∃ y, permute021 x0 = some y ∧
      y.shape = [bb, cfg.numNodes, cfg.lenHist] :=
    ⟨_, permute021_eq _ _ _ _ s0, rfl⟩
  obtain ⟨cov, ec, sc⟩ : ∃ y, lastTimeTail hist = some y ∧
      y.shape = [bb, cfg.numNodes, cc - 1] :=
    ⟨_, lastTimeTail_eq _ _ _ _ _ hhist hl1, rfl⟩
  have eu : (mkHUTformer ops θ tr ξ cfg md).stpeEmbed bb cfg.numNodes x1 cov = none :=
    mkHUT_stpeEmbed_none ops θ tr ξ cfg md bb cfg.lenHist (cc - 1) x1 cov s1 sc ht hdvd
      hb hn (by omega)
  simp only [HUTformerM.forward, shape4_eq _ _ _ _ _ hhist, obind_some, e0, e1, ec,
    eu, obind_none]

/-- Claim C1, counterexample: the claim fails as stated. With
`len_hist = len_pred = 12`, `len_patch = 1` the configuration satisfies every
precondition the specification states (both lengths are multiples of the
patch length and `num_patch = 12` is divisible by 4), the model constructs,
and the input pair is well formed with 3 channels — yet `forward` raises
instead of returning a tensor: at `encoder_3` the window is
`(2, 12 // 8) = (2, 1)`, so the relative-position bias is `2 x 2` while the
token count is 3, and the bias addition fails to broadcast. -/
theorem claim1_counterexample :
    (HUTformerM.forward trivOps
      (mkHUTformer trivOps trivTheta false trivXi ⟨1, 12, 12, 1⟩ Mode.encoder)
      (zerosT [1, 12, 1, 3]) (zerosT [1, 12, 1, 3]) 0 0 false).isSome = false := by
  decide

/-- Claim C1, amended: for every validly constructed HUTformer and
well-formed input (batch and node counts positive, channel count exactly 3,
history length a multiple of the patch length) whose derived
`num_patch = len_hist // len_patch` is divisible by 8 (not merely by 4 — at
`num_patch = 12`, which satisfies every precondition the specification
states, `forward` raises; see the counterexample), encoder-mode `forward`
returns a tensor of shape `(batch, len_pred, nodes, 1)` for arbitrary
`len_pred`, and decoder-mode `forward` does so exactly when additionally
`len_pred = len_hist`: when `len_pred ≠ len_hist` the decoder re-embeds the
encoder prediction (of length `len_pred`) through the STPE layer sized for
`len_hist`, so `forward` raises and returns no tensor. -/
theorem claim1_amended (ops : Ops) (θ : String → List ℕ → ℚ) (tr : Bool)
    (ξ : String → List ℕ → Bool) (cfg : HConfig) (hist fut : Tensor)
    (bb bs ep : ℕ) (trainArg : Bool)
    (hhist : hist.shape = [bb, cfg.lenHist, cfg.numNodes, 3])
    (hb : 0 < bb) (hn : 0 < cfg.numNodes) (ht : 0 < cfg.lenPatch)
    (hdvd : cfg.lenPatch ∣ cfg.lenHist) (h8 : 8 ∣ cfg.lenHist / cfg.lenPatch)
    (hpos : 0 < cfg.lenHist / cfg.lenPatch) :
    (∃ y, (mkHUTformer ops θ tr ξ cfg Mode.encoder).forward ops hist fut bs ep trainArg
      = some y ∧ y.shape = [bb, cfg.lenPred, cfg.numNodes, 1]) ∧
    (∀ lf, fut.shape = [bb, lf, cfg.numNodes, 3] → 1 ≤ lf →
      cfg.lenPred = cfg.lenHist →
      ∃ y, (mkHUTformer ops θ tr ξ cfg Mode.decoder).forward ops hist fut bs ep trainArg
        = some y ∧ y.shape = [bb, cfg.lenPred, cfg.numNodes, 1]) ∧
    (∀ lf, fut.shape = [bb, lf, cfg.numNodes, 3] → 1 ≤ lf →
      cfg.lenPred ≠ cfg.lenHist →
      (mkHUTformer ops θ tr ξ cfg Mode.decoder).forward ops hist fut bs ep trainArg
        = none) := by
  refine ⟨?_, ?_, ?_⟩
  · exact mkHUT_forward_encoder_spec ops θ tr ξ cfg hist fut bb bs ep trainArg hhist
      hb hn ht hdvd h8 hpos
  · intro lf hfut hlf hpred
    exact mkHUT_forward_decoder_spec ops θ tr ξ cfg hist fut bb bs ep lf trainArg hhist
      hfut hlf hb hn ht hdvd h8 hpos hpred
  · intro lf hfut hlf hpred
    exact mkHUT_forward_decoder_mismatch_none ops θ tr ξ cfg hist fut bb bs ep lf
      trainArg hhist hfut hlf hb hn ht hdvd h8 hpos hpred

/-- Claim C1, witness: the amended theorem applied at the concrete
configuration `numNodes=1, len_hist=8, len_patch=1` in both modes with
`len_pred = 8`, and additionally in decoder mode with the mismatched
`len_pred = 16`, where forward returns none. -/
theorem claim1_witness :
    (∃ y, (mkHUTformer trivOps trivTheta false trivXi ⟨1, 8, 8, 1⟩ Mode.encoder).forward
      trivOps (zerosT [1, 8, 1, 3]) (zerosT [1, 8, 1, 3]) 0 0 false = some y ∧
      y.shape = [1, 8, 1, 1]) ∧
    (∃ y, (mkHUTformer trivOps trivTheta false trivXi ⟨1, 8, 8, 1⟩ Mode.decoder).forward
      trivOps (zerosT [1, 8, 1, 3]) (zerosT [1, 8, 1, 3]) 0 0 false = some y ∧
      y.shape = [1, 8, 1, 1]) ∧
    (mkHUTformer trivOps trivTheta false trivXi ⟨1, 8, 16, 1⟩ Mode.decoder).forward
      trivOps (zerosT [1, 8, 1, 3]) (zerosT [1, 8, 1, 3]) 0 0 false = none := by
  have h := claim1_amended trivOps trivTheta false trivXi ⟨1, 8, 8, 1⟩
    (zerosT [1, 8, 1, 3]) (zerosT [1, 8, 1, 3]) 1 0 0 false rfl (by norm_num)
    (by norm_num) (by norm_num) (by norm_num) (by norm_num) (by norm_num)
  have h2 := claim1_amended trivOps trivTheta false trivXi ⟨1, 8, 16, 1⟩
    (zerosT [1, 8, 1, 3]) (zerosT [1, 8, 1, 3]) 1 0 0 false rfl (by norm_num)
    (by norm_num) (by norm_num) (by norm_num) (by norm_num) (by norm_num)
  exact ⟨h.1, h.2.1 8 rfl (by norm_num) rfl, h2.2.2 8 rfl (by norm_num) (by norm_num)⟩

/-- Claim C2, counterexample: the claim fails as stated. With channel
count `C = 2` (which the claim says must be accepted) and an otherwise valid
configuration, `forward` raises: the covariate slice contributes `C - 1 = 1`
features, so the concatenated vector has width `num_patch*64 + 17`, but
`STPE` is a linear layer of input width `num_patch*64 + 18`. -/
theorem claim2_counterexample :
    (HUTformerM.forward trivOps
      (mkHUTformer trivOps trivTheta false trivXi ⟨1, 8, 8, 1⟩ Mode.encoder)
      (zerosT [1, 8, 1, 2]) (zerosT [1, 8, 1, 2]) 0 0 false).isSome = false := by
  decide

/-- Claim C2, amended: for a well-formed history tensor with `C ≥ 2`
channels and a valid configuration, `forward` succeeds exactly when `C = 3`:
`STPE = nn.Linear(num_patch*embed_dim + dim_SE + 2, ...)` hard-codes exactly
2 auxiliary covariates, so any other channel count makes the matrix
multiplication fail (in either mode). -/
theorem claim2_amended (ops : Ops) (θ : String → List ℕ → ℚ) (tr : Bool)
    (ξ : String → List ℕ → Bool) (cfg : HConfig) (hist fut : Tensor)
    (bb bs ep cc : ℕ) (trainArg : Bool)
    (hhist : hist.shape = [bb, cfg.lenHist, cfg.numNodes, cc]) (hcc : 2 ≤ cc)
    (hb : 0 < bb) (hn : 0 < cfg.numNodes) (ht : 0 < cfg.lenPatch)
    (hdvd : cfg.lenPatch ∣ cfg.lenHist) (h8 : 8 ∣ cfg.lenHist / cfg.lenPatch)
    (hpos : 0 < cfg.lenHist / cfg.lenPatch) :
    (cc = 3 →
      ∃ y, (mkHUTformer ops θ tr ξ cfg Mode.encoder).forward ops hist fut bs ep trainArg
        = some y ∧ y.shape = [bb, cfg.lenPred, cfg.numNodes, 1]) ∧
    (cc ≠ 3 → ∀ md,
      (mkHUTformer ops θ tr ξ cfg md).forward ops hist fut bs ep trainArg = none) := by
  constructor
  · intro h3
    subst h3
    exact mkHUT_forward_encoder_spec ops θ tr ξ cfg hist fut bb bs ep trainArg hhist
      hb hn ht hdvd h8 hpos
  · intro h3 md
    exact mkHUT_forward_badC_none ops θ tr ξ cfg md hist fut bb bs ep cc trainArg hhist
      hb hn ht hdvd hpos hcc h3

/-- Claim C2, witness: the amended theorem applied at the concrete
configuration `numNodes=1, len_hist=len_pred=8, len_patch=1`, with `C = 3`
(success) and `C = 4` (failure in both modes). -/
theorem claim2_witness :
    (∃ y, (mkHUTformer trivOps trivTheta false trivXi ⟨1, 8, 8, 1⟩ Mode.encoder).forward
      trivOps (zerosT [1, 8, 1, 3]) (zerosT [1, 8, 1, 3]) 0 0 false = some y ∧
      y.shape = [1, 8, 1, 1]) ∧
    (∀ md, (mkHUTformer trivOps trivTheta false trivXi ⟨1, 8, 8, 1⟩ md).forward
      trivOps (zerosT [1, 8, 1, 4]) (zerosT [1, 8, 1, 4]) 0 0 false = none) := by
  constructor
  · exact (claim2_amended trivOps trivTheta false trivXi ⟨1, 8, 8, 1⟩
      (zerosT [1, 8, 1, 3]) (zerosT [1, 8, 1, 3]) 1 0 0 3 false rfl (by norm_num)
      (by norm_num) (by norm_num) (by norm_num) (by norm_num) (by norm_num)
      (by norm_num)).1 rfl
  · exact (claim2_amended trivOps trivTheta false trivXi ⟨1, 8, 8, 1⟩
      (zerosT [1, 8, 1, 4]) (zerosT [1, 8, 1, 4]) 1 0 0 4 false rfl (by norm_num)
      (by norm_num) (by norm_num) (by norm_num) (by norm_num) (by norm_num)
      (by norm_num)).2 (by norm_num)

/-- Claim C3, counterexample: the claim fails as stated. Construction
succeeds (returns a model, raising nothing) both for
`len_hist = 72, len_patch = 12` — whose `num_patch = 6` is not divisible
by 4 — and for `len_hist = 70, len_patch = 12`, where the history length is
not a multiple of the patch length; `HUTformer.__init__` contains no
divisibility validation whatsoever. -/
theorem claim3_counterexample :
    (HUTformerInit trivOps trivTheta false trivXi ⟨1, 72, 72, 12⟩ "encoder").isSome
      = true ∧
    (HUTformerInit trivOps trivTheta false trivXi ⟨1, 70, 70, 12⟩ "decoder").isSome
      = true := by
  constructor <;> decide

/-- Claim C3, amended: `HUTformer.__init__` validates only the mode
string. For every configuration with `len_patch ≥ 1` (a zero patch length
raises `ZeroDivisionError` at `int(len_hist / len_patch)`), construction
succeeds in both modes regardless of any divisibility relation between the
lengths; any mode string other than encoder or decoder fails the assert.
Divisibility violations surface later, as shape errors inside `forward`. -/
theorem claim3_amended (ops : Ops) (θ : String → List ℕ → ℚ) (tr : Bool)
    (ξ : String → List ℕ → Bool) (cfg : HConfig) (ht : 0 < cfg.lenPatch) :
    (HUTformerInit ops θ tr ξ cfg "encoder").isSome = true ∧
    (HUTformerInit ops θ tr ξ cfg "decoder").isSome = true ∧
    (∀ md : String, md ≠ "encoder" → md ≠ "decoder" →
      HUTformerInit ops θ tr ξ cfg md = none) := by
  refine ⟨?_, ?_, ?_⟩
  · simp [HUTformerInit, ht]
  · simp [HUTformerInit, ht]
  · intro md h1 h2
    simp [HUTformerInit, ht, h1, h2]

/-- Claim C3, witness: the amended theorem applied at the concrete
configuration `numNodes=1, len_hist=len_pred=96, len_patch=12`, including
the rejected mode string. -/
theorem claim3_witness :
    (HUTformerInit trivOps trivTheta false trivXi ⟨1, 96, 96, 12⟩ "encoder").isSome
      = true ∧
    HUTformerInit trivOps trivTheta false trivXi ⟨1, 96, 96, 12⟩ "both" = none := by
  have h := claim3_amended trivOps trivTheta false trivXi ⟨1, 96, 96, 12⟩ (by norm_num)
  exact ⟨h.1, h.2.2 "both" (by decide) (by decide)⟩

theorem lnElem_congr (ops : Ops) (ln : LayerNormM) (v w : ℕ → ℚ) (j : ℕ)
    (hvw : ∀ k < ln.dim, v k = w k) (hj : j < ln.dim) :
    lnElem ops ln v j = lnElem ops ln w j := by
  have h1 : (∑ k ∈ Finset.range ln.dim, v k) = ∑ k ∈ Finset.range ln.dim, w k :=
    Finset.sum_congr rfl fun k hk => hvw k (Finset.mem_range.mp hk)
  have h2 : ∀ μ : ℚ, (∑ k ∈ Finset.range ln.dim, (v k - μ) ^ 2) =
      ∑ k ∈ Finset.range ln.dim, (w k - μ) ^ 2 := fun μ =>
    Finset.sum_congr rfl fun k hk => by rw [hvw k (Finset.mem_range.mp hk)]
  simp only [lnElem, h1, hvw j hj]
  rw [h2]

theorem rearrMergePairs_spec (x : Tensor) (a l c : ℕ) (h : x.shape = [a, l, c])
    (hdvd : 2 ∣ l) :
    ∃ y, rearrMergePairs x = some y ∧ y.shape = [a, l / 2, 2 * c] ∧
      ∀ i0 i1 i2, y.data [i0, i1, i2] = x.data [i0, 2 * i1 + i2 / c, i2 % c] :=
  ⟨_, rearrMergePairs_eq x a l c h hdvd, rfl, fun _ _ _ => rfl⟩

theorem layerNorm_spec3 (ops : Ops) (ln : LayerNormM) (x : Tensor) (a b : ℕ)
    (h : x.shape = [a, b, ln.dim]) :
    ∃ y, ln.apply ops x = some y ∧ y.shape = [a, b, ln.dim] ∧
      ∀ i0 i1 i2, y.data [i0, i1, i2] = lnElem ops ln (fun k => x.data [i0, i1, k]) i2 :=
  ⟨_, lnApplyEq ops ln x [a, b] h, rfl, fun _ _ _ => rfl⟩

/-- Claim C4: for every input of shape `(batch, 2p, d)`,
`SegmentMerging.forward` returns a tensor of shape `(batch, p, 2d)` whose
token `i` is the LayerNorm of the concatenation of the channel vectors at
input positions `2i` and `2i+1`; for every input whose sequence axis has odd
length the call raises (einops rejects the `(p d)` split). -/
theorem claim4_segment_merging (ops : Ops) (d : ℕ) :
    (∀ (x : Tensor) (bb p : ℕ), x.shape = [bb, 2 * p, d] →
      ∃ y, (mkSegmentMerging d).apply ops x = some y ∧ y.shape = [bb, p, 2 * d] ∧
        ∀ b i j, b < bb → i < p → j < 2 * d →
          y.data [b, i, j] = lnElem ops (mkLayerNorm (2 * d))
            (fun k => if k < d then x.data [b, 2 * i, k] else x.data [b, 2 * i + 1, k - d])
            j) ∧
    (∀ (x : Tensor) (bb l c : ℕ), x.shape = [bb, l, c] → ¬ 2 ∣ l →
      (mkSegmentMerging d).apply ops x = none) := by
  constructor
  · intro x bb p hx
    obtain ⟨z, ez, sz, dz⟩ := rearrMergePairs_spec x bb (2 * p) d hx ⟨p, rfl⟩
    have hdiv : 2 * p / 2 = p := by omega
    rw [hdiv] at sz
    obtain ⟨y, ey, sy, dy⟩ := layerNorm_spec3 ops (mkLayerNorm (2 * d)) z bb p
      (by simpa [mkLayerNorm] using sz)
    refine ⟨y, ?_, by simpa [mkLayerNorm] using sy, ?_⟩
    · simp only [SegmentMergingM.apply, mkSegmentMerging, ez, obind_some, ey]
    · intro b i j hb hi hj
      rw [dy b i j]
      apply lnElem_congr
      · intro k hk
        simp only [mkLayerNorm] at hk
        rw [dz b i k]
        by_cases hkd : k < d
        · have h1 : k / d = 0 := Nat.div_eq_of_lt hkd
          have h2 : k % d = k := Nat.mod_eq_of_lt hkd
          simp [h1, h2, hkd]
        · have hd0 : 0 < d := by omega
          have h1 : k / d = 1 := Nat.div_eq_of_lt_le (by omega) (by omega)
          have h2 : k % d = k - d := by
            rw [Nat.mod_eq_sub_mod (by omega)]
            exact Nat.mod_eq_of_lt (by omega)
          simp [h1, h2, hkd]
      · simpa [mkLayerNorm] using hj
  · intro x bb l c hx hodd
    have e1 : rearrMergePairs x = none := by
      unfold rearrMergePairs
      rw [hx]
      simp [hodd]
    simp only [SegmentMergingM.apply, mkSegmentMerging, e1, obind_none]

/-- Claim C4, witness: the theorem applied with `d = 1` to a concrete
`(1, 2, 1)` input (success branch) and a concrete `(1, 3, 1)` input (odd
length, failure branch). -/
theorem claim4_witness :
    (∃ y, (mkSegmentMerging 1).apply trivOps (zerosT [1, 2, 1]) = some y ∧
      y.shape = [1, 1, 2 * 1] ∧
      ∀ b i j, b < 1 → i < 1 → j < 2 * 1 →
        y.data [b, i, j] = lnElem trivOps (mkLayerNorm (2 * 1))
          (fun k => if k < 1 then (zerosT [1, 2, 1]).data [b, 2 * i, k]
            else (zerosT [1, 2, 1]).data [b, 2 * i + 1, k - 1]) j) ∧
    (mkSegmentMerging 1).apply trivOps (zerosT [1, 3, 1]) = none := by
  have h := claim4_segment_merging trivOps 1
  exact ⟨h.1 (zerosT [1, 2, 1]) 1 1 rfl, h.2 (zerosT [1, 3, 1]) 1 3 1 rfl (by decide)⟩

theorem einsumScores_spec (q k : Tensor) (b l h e s : ℕ)
    (hq : q.shape = [b, l, h, e]) (hk : k.shape = [b, s, h, e]) :
    ∃ a, einsumScores q k = some a ∧ a.shape = [b, h, l, s] ∧
      ∀ i0 i1 i2 i3, a.data [i0, i1, i2, i3] =
        ∑ j ∈ Finset.range e, q.data [i0, i2, i1, j] * k.data [i0, i3, i1, j] :=
  ⟨_, einsumScores_eq q k b l h e s hq hk, rfl, fun _ _ _ _ => rfl⟩

theorem einsumValues_spec (a v : Tensor) (b h l s d : ℕ)
    (ha : a.shape = [b, h, l, s]) (hv : v.shape = [b, s, h, d]) :
    ∃ y, einsumValues a v = some y ∧ y.shape = [b, l, h, d] ∧
      ∀ i0 i1 i2 i3, y.data [i0, i1, i2, i3] =
        ∑ r ∈ Finset.range s, a.data [i0, i2, i1, r] * v.data [i0, r, i2, i3] :=
  ⟨_, einsumValues_eq a v b h l s d ha hv, rfl, fun _ _ _ _ => rfl⟩

/-- Claim C5: for queries `(B, L, H, E)` and keys/values `(B, S, H, E)`,
`FullAttention.forward` returns a tensor of exactly the queries shape whose
entries are the attention-weighted sum of values (weights = dropout of the
softmax of the scaled scores) plus the original, unmodified queries as a
residual; the scale defaults to `1/sqrt(E)` when not provided. -/
theorem claim5_full_attention (ops : Ops) (fa : FullAttentionM) (q k v : Tensor)
    (bq lq s hh e : ℕ) (hq : q.shape = [bq, lq, hh, e]) (hk : k.shape = [bq, s, hh, e])
    (hv : v.shape = [bq, s, hh, e]) :
    ∃ y scores, einsumScores q k = some scores ∧
      fa.apply ops q k v = some y ∧ y.shape = q.shape ∧
      (∀ b l h2 e2, b < bq → l < lq → h2 < hh → e2 < e →
        y.data [b, l, h2, e2] =
          (∑ r ∈ Finset.range s,
            (fa.dropout.apply (softmaxLast ops
              (emap (fun u => faScale ops fa e * u) scores))).data [b, h2, l, r] *
              v.data [b, r, h2, e2]) + q.data [b, l, h2, e2]) ∧
      (fa.scale = none → faScale ops fa e = 1 / ops.sqrt (e : ℚ)) := by
  obtain ⟨A, eA, sA, dA⟩ := einsumScores_spec q k bq lq hh e s hq hk
  obtain ⟨V, eV, sV, dV⟩ := einsumValues_spec
    (fa.dropout.apply (softmaxLast ops (emap (fun u => faScale ops fa e * u) A))) v
    bq hh lq s e (by rw [dropout_shape, softmaxLast_shape, emap_shape, sA]) hv
  obtain ⟨y, ey, sy, dy⟩ := badd_shape_same4 V q bq lq hh e sV hq
  refine ⟨y, A, eA, ?_, by rw [sy, hq], ?_, ?_⟩
  · simp only [FullAttentionM.apply, shape4_eq _ _ _ _ _ hq, shape4_eq _ _ _ _ _ hv,
      obind_some, eA, eV, ey]
  · intro b l h2 e2 hb hl hh2 he2
    rw [dy b l h2 e2 hb hl hh2 he2, dV b l h2 e2]
  · intro hnone
    simp [faScale, hnone]

/-- Claim C5, witness: the theorem applied to concrete `(1, 1, 1, 1)`
tensors with the default (`None`) scale. -/
theorem claim5_witness :
    ∃ y scores, einsumScores (zerosT [1, 1, 1, 1]) (zerosT [1, 1, 1, 1]) = some scores ∧
      FullAttentionM.apply trivOps ⟨none, ⟨1 / 10, false, fun _ => true⟩⟩
        (zerosT [1, 1, 1, 1]) (zerosT [1, 1, 1, 1]) (zerosT [1, 1, 1, 1]) = some y ∧
      y.shape = (zerosT [1, 1, 1, 1]).shape ∧
      (∀ b l h2 e2, b < 1 → l < 1 → h2 < 1 → e2 < 1 →
        y.data [b, l, h2, e2] =
          (∑ r ∈ Finset.range 1,
            (DropoutM.apply ⟨1 / 10, false, fun _ => true⟩ (softmaxLast trivOps
              (emap (fun u =>
                faScale trivOps ⟨none, ⟨1 / 10, false, fun _ => true⟩⟩ 1 * u) scores))).data
              [b, h2, l, r] * (zerosT [1, 1, 1, 1]).data [b, r, h2, e2]) +
            (zerosT [1, 1, 1, 1]).data [b, l, h2, e2]) ∧
      ((⟨none, ⟨1 / 10, false, fun _ => true⟩⟩ : FullAttentionM).scale = none →
        faScale trivOps ⟨none, ⟨1 / 10, false, fun _ => true⟩⟩ 1 =
          1 / trivOps.sqrt ((1 : ℕ) : ℚ)) :=
  claim5_full_attention trivOps ⟨none, ⟨1 / 10, false, fun _ => true⟩⟩
    (zerosT [1, 1, 1, 1]) (zerosT [1, 1, 1, 1]) (zerosT [1, 1, 1, 1])
    1 1 1 1 1 rfl rfl rfl

/-- Claim C6: for a `WindowAttention` constructed with
`window_size = (2, 12)`, the flattened continuous bias table has exactly
`(2*2-1)*(2*12-1) = 69` rows and `num_heads` columns, and the precomputed
`relative_position_index` buffer has shape `(24, 24)` with every entry an
integer in `[0, 68]`. -/
theorem claim6_window_bias (ops : Ops) (θ : String → List ℕ → ℚ) (tr : Bool)
    (ξ : String → List ℕ → Bool) (nm : String) (dim : ℕ) (qb : Bool) (p1 p2 : ℚ)
    (hh : ℕ) (hH : 1 ≤ hh) :
    (mkWindowAttention ops θ tr ξ nm dim 2 12 hh qb p1 p2).relPosIndex.shape = [24, 24] ∧
    (∀ a b : ℕ, a < 24 → b < 24 →
      0 ≤ (mkWindowAttention ops θ tr ξ nm dim 2 12 hh qb p1 p2).relPosIndex.data [a, b] ∧
      (mkWindowAttention ops θ tr ξ nm dim 2 12 hh qb p1 p2).relPosIndex.data [a, b] ≤ 68) ∧
    (∃ bt, (mkWindowAttention ops θ tr ξ nm dim 2 12 hh qb p1 p2).biasTable = some bt ∧
      bt.shape = [(2 * 2 - 1) * (2 * 12 - 1), hh]) := by
  refine ⟨by rw [mkWA_relPosIndex]; norm_num [relPosIndexT_shape], ?_, ?_⟩
  · have hfin : ∀ a b : Fin 24, 0 ≤ (relPosIndexT 2 12).data [a.1, b.1] ∧
        (relPosIndexT 2 12).data [a.1, b.1] ≤ 68 := by decide
    intro a b ha hb
    rw [mkWA_relPosIndex]
    exact hfin ⟨a, ha⟩ ⟨b, hb⟩
  · obtain ⟨y1, e1, s1⟩ : ∃ y, (mkLinear θ (nm ++ ".cpb_mlp.0") 2 512 true).apply
        (relCoordsTableT ops 2 12) = some y ∧ y.shape = [1, 3, 23, 512] :=
      ⟨_, linApplyEq _ _ [1, 3, 23] (by simp [mkLinear, relCoordsTableT]),
        by simp [mkLinear]⟩
    obtain ⟨y2, e2, s2⟩ : ∃ y, (mkLinear θ (nm ++ ".cpb_mlp.2") 512 hh false).apply
        (emap reluQ y1) = some y ∧ y.shape = [1, 3, 23, hh] :=
      ⟨_, linApplyEq _ _ [1, 3, 23] (by simp [mkLinear, emap_shape, s1]),
        by simp [mkLinear]⟩
    obtain ⟨y3, e3, s3⟩ : ∃ y, reshapeHole [] [hh] y2 = some y ∧ y.shape = [69, hh] :=
      ⟨_, reshapeHole_eq' _ _ _ 69 hh (by omega)
        (by simp [Tensor.numel, s2]; try ring) (by simp), rfl⟩
    refine ⟨y3, ?_, by rw [s3]⟩
    simp only [WindowAttentionM.biasTable, mkWA_cpb1, mkWA_cpb2, mkWA_relCoordsTable,
      mkWA_numHeads, e1, obind_some, e2, e3]

/-- Claim C6, witness: the theorem applied at `num_heads = 8` (the value
used by HUTformer). -/
theorem claim6_witness :
    (mkWindowAttention trivOps trivTheta false trivXi "encoder_1" 64 2 12 8 true
      (1 / 10) (1 / 10)).relPosIndex.shape = [24, 24] ∧
    (∀ a b : ℕ, a < 24 → b < 24 →
      0 ≤ (mkWindowAttention trivOps trivTheta false trivXi "encoder_1" 64 2 12 8 true
        (1 / 10) (1 / 10)).relPosIndex.data [a, b] ∧
      (mkWindowAttention trivOps trivTheta false trivXi "encoder_1" 64 2 12 8 true
        (1 / 10) (1 / 10)).relPosIndex.data [a, b] ≤ 68) ∧
    (∃ bt, (mkWindowAttention trivOps trivTheta false trivXi "encoder_1" 64 2 12 8 true
      (1 / 10) (1 / 10)).biasTable = some bt ∧
      bt.shape = [(2 * 2 - 1) * (2 * 12 - 1), 8]) :=
  claim6_window_bias trivOps trivTheta false trivXi "encoder_1" 64 true (1 / 10) (1 / 10)
    8 (by norm_num)

/-- Claim C7: after decoder-mode construction, every parameter whose name
does not contain the substring decoder has `requires_grad = False`, and
every parameter whose name does contain it retains `requires_grad = True`;
this is a fixed construction-time policy applied over the full
`named_parameters()` list. -/
theorem claim7_freeze :
    ∀ p ∈ hutformerParamsAfterInit Mode.decoder,
      (strHasSub "decoder" p.1 = true → p.2 = true) ∧
      (strHasSub "decoder" p.1 = false → p.2 = false) := by
  decide

/-- Claim C7, witness: the theorem applied at the parameters `SE`
(frozen) and `decoder_1.logit_scale` (still trainable). -/
theorem claim7_witness :
    ((strHasSub "decoder" "SE" = true → false = true) ∧
      (strHasSub "decoder" "SE" = false → false = false)) ∧
    ((strHasSub "decoder" "decoder_1.logit_scale" = true → true = true) ∧
      (strHasSub "decoder" "decoder_1.logit_scale" = false → true = false)) :=
  ⟨claim7_freeze ("SE", false) (by decide),
    claim7_freeze ("decoder_1.logit_scale", true) (by decide)⟩

/-- Claim C8: for every draw list and every `(mean, std, a, b)` with
`a < b` and `std > 0`, after `_no_grad_trunc_normal_` runs, every element of
the mutated tensor lies in the closed interval `[a, b]`, regardless of the
uniform random draws — the final `clamp_(min=a, max=b)` guarantees it. -/
theorem claim8_trunc_normal (ops : Ops) (draws : List ℚ) (mean std a b : ℚ)
    (hab : a < b) (hstd : 0 < std) :
    ∀ y ∈ trunc_normal_fill ops draws mean std a b, a ≤ y ∧ y ≤ b := by
  intro y hy
  simp only [trunc_normal_fill, List.mem_map] at hy
  obtain ⟨u, _, rfl⟩ := hy
  unfold truncScalar clampQ
  constructor
  · exact le_min (le_trans (le_max_right _ _) (le_refl _)) hab.le |>.trans (le_refl _)
  · exact min_le_right _ _

/-- Claim C8, witness: the theorem applied to the concrete draw list `[5]`
with `mean=0, std=1/50, a=-2, b=2` (the parameters HUTformer uses), at the
single resulting element. -/
theorem claim8_witness :
    (-2 : ℚ) ≤ truncScalar trivOps 0 (1 / 50) (-2) 2 5 ∧
      truncScalar trivOps 0 (1 / 50) (-2) 2 5 ≤ 2 :=
  claim8_trunc_normal trivOps [5] 0 (1 / 50) (-2) 2 (by norm_num) (by norm_num)
    (truncScalar trivOps 0 (1 / 50) (-2) 2 5) (by simp [trunc_normal_fill])

/-- Claim C9: for fixed inputs and fixed parameter/random state (the
module state `m` bundles both), `HUTformer.forward` returns equal outputs
for any values of the scalar `batch_seen` and `epoch` arguments and of the
`train` flag: none of the three is ever read by the body (dropout is gated
by the `training` state stored in the modules, not by the argument), so this
holds definitionally. The unused `**kwargs` of the source signature are not
modelled, being equally unread. -/
theorem claim9_unused_args (ops : Ops) (m : HUTformerM) (hist fut : Tensor)
    (bs1 ep1 bs2 ep2 : ℕ) (t1 t2 : Bool) :
    m.forward ops hist fut bs1 ep1 t1 = m.forward ops hist fut bs2 ep2 t2 := rfl

/-- Claim C10: for a HUTformer constructed in encoder mode, `forward` is
independent of the `future_data` argument: the encoder path reads only the
history tensor (channel 0 of all timesteps plus the covariate channels of
the last timestep) and returns before `future_data` is ever touched, so two
calls differing only in the future tensor are definitionally equal. -/
theorem claim10_encoder_ignores_future (ops : Ops) (θ : String → List ℕ → ℚ)
    (tr : Bool) (ξ : String → List ℕ → Bool) (cfg : HConfig) (hist fut fut2 : Tensor)
    (bs ep : ℕ) (ta : Bool) :
    (mkHUTformer ops θ tr ξ cfg Mode.encoder).forward ops hist fut bs ep ta =
    (mkHUTformer ops θ tr ξ cfg Mode.encoder).forward ops hist fut2 bs ep ta := rfl
